import Mathlib

/-!
Verification development for the quantum-sim repository.

Shallow embedding conventions:
* JavaScript numbers are modeled as exact rationals (`ℚ`).  `Float32Array`
  rounding is not modeled; the properties verified here (clamping, update
  ordering, pool bookkeeping) are insensitive to rounding.
* Flat per-cell arrays (`Float32Array(N3)` etc.) are modeled as functions
  `ℕ → ℚ`; only indices `< N3` (resp. `< MAX`) are meaningful, and updates
  are guarded accordingly where the source loops over the whole array.
* `Math.random()` draws, and the trigonometric direction vectors derived
  from them (`speed·sin φ·cos θ`, …, which are not rational-representable),
  are supplied by explicit oracle structures; each oracle field corresponds
  to one draw site of the source, indexed by the loop position at which the
  source consumes it.
* `main.js` assigns `particles.field = field` at startup, so the particle
  system is modeled with the field always present.
-/

set_option maxRecDepth 10000

/-! ### QuantumField.js — constants and state -/

/-- Grid dimension (`export const N = 28`). -/
def N : ℕ := 28

/-- `N2 = N * N`. -/
def N2 : ℕ := N * N

/-- `N3 = N * N * N`. -/
def N3 : ℕ := N * N * N

/-- `WORLD_RANGE = 14` (world goes from −14 to +14 units). -/
def WORLD_RANGE : ℚ := 14

/-- `VEV = 0.8`, the Higgs vacuum expectation value. -/
def VEV : ℚ := 0.8

/-- State of a `QuantumField` instance: three amplitude channels, their
velocities, the analysis channels written by `Consciousness`, and the
precomputed heart-attractor data.  Arrays are modeled as `ℕ → ℚ`. -/
@[ext]
structure FieldState where
  higgs : ℕ → ℚ
  electron : ℕ → ℚ
  photon : ℕ → ℚ
  higgsVel : ℕ → ℚ
  electronVel : ℕ → ℚ
  photonVel : ℕ → ℚ
  phi : ℕ → ℚ
  orchCoherence : ℕ → ℚ
  orchFlash : ℕ → ℕ
  heartSurface : ℕ → ℚ
  heartInterior : ℕ → ℚ
  heartStrength : ℚ
  heartSurfaceCells : List ℕ
  heartInteriorCells : List ℕ

/-- `idx(x, y, z)`: flatten grid coordinates with periodic wrap
(`((x % N) + N) % N` etc.). -/
def idx (x y z : ℤ) : ℕ :=
  let xi := ((x % (N : ℤ)) + N) % N
  let yi := ((y % (N : ℤ)) + N) % N
  let zi := ((z % (N : ℤ)) + N) % N
  (xi + yi * N + zi * (N2 : ℤ)).toNat

/-- `coords(i)`: recover `(x, y, z)` from a flat index, as in the source
(`z = (i / N2) | 0; y = ((i - z*N2) / N) | 0; x = i - y*N - z*N2`). -/
def coords (i : ℕ) : ℕ × ℕ × ℕ :=
  let z := i / N2
  let y := (i - z * N2) / N
  let x := i - y * N - z * N2
  (x, y, z)

/-- `_laplacian(field, x, y, z)`: 6-neighbor periodic stencil,
`xp + xm + yp + ym + zp + zm - 6c`. -/
def laplacianAt (f : ℕ → ℚ) (x y z : ℤ) : ℚ :=
  let c := f (idx x y z)
  let xp := f (idx (x + 1) y z)
  let xm := f (idx (x - 1) y z)
  let yp := f (idx x (y + 1) z)
  let ym := f (idx x (y - 1) z)
  let zp := f (idx x y (z + 1))
  let zm := f (idx x y (z - 1))
  xp + xm + yp + ym + zp + zm - 6 * c

/-- Higgs acceleration at cell `(x,y,z)`:
`0.3·L[higgs] − (h−VEV)·(h²−VEV²)·0.4 − 0.1·e²` (Mexican-hat force plus
electron back-reaction). -/
def accHAt (s : FieldState) (x y z : ℤ) : ℚ :=
  let i := idx x y z
  let h := s.higgs i
  let e := s.electron i
  0.3 * laplacianAt s.higgs x y z - (h - VEV) * (h * h - VEV * VEV) * 0.4 - 0.1 * e * e

/-- Electron acceleration: `0.5·L[electron] − 0.2·e − 0.3·h·e`
(Yukawa mass from the instantaneous Higgs amplitude). -/
def accEAt (s : FieldState) (x y z : ℤ) : ℚ :=
  let i := idx x y z
  let h := s.higgs i
  let e := s.electron i
  0.5 * laplacianAt s.electron x y z - 0.2 * e - 0.3 * h * e

/-- Photon acceleration: `1.0·L[photon] − 0.05·photonVel + 0.2·electronVel`
(massless wave driven by the electron current, lightly damped). -/
def accPAt (s : FieldState) (x y z : ℤ) : ℚ :=
  1.0 * laplacianAt s.photon x y z - 0.05 * s.photonVel (idx x y z)
    + 0.2 * s.electronVel (idx x y z)

/-- Acceleration of channel `c` at flat index `i` (the source fills the
three `_…Acc` buffers from the current state before touching positions). -/
def accAt (s : FieldState) (which : ℕ) (i : ℕ) : ℚ :=
  let c := coords i
  match which with
  | 0 => accHAt s c.1 c.2.1 c.2.2
  | 1 => accEAt s c.1 c.2.1 c.2.2
  | _ => accPAt s c.1 c.2.1 c.2.2

/-- Step 2 of `QuantumField.update`: `x += v·dt + a·(0.5·dt·dt)` for every
cell of each channel, accelerations taken from the pre-step state `s`. -/
def verletPosStage (s : FieldState) (dt : ℚ) : FieldState :=
  let dt2half := 0.5 * dt * dt
  { s with
    higgs := fun i => if i < N3 then
        s.higgs i + s.higgsVel i * dt + accAt s 0 i * dt2half
      else s.higgs i
    electron := fun i => if i < N3 then
        s.electron i + s.electronVel i * dt + accAt s 1 i * dt2half
      else s.electron i
    photon := fun i => if i < N3 then
        s.photon i + s.photonVel i * dt + accAt s 2 i * dt2half
      else s.photon i }

/-- Step 3 of `QuantumField.update`: recompute accelerations at the new
positions (velocities not yet advanced) and set
`v += (a_old + a_new)·(0.5·dt)`.  `s0` is the pre-step state, `s1` the
position-advanced state. -/
def verletVelStage (s0 s1 : FieldState) (dt : ℚ) : FieldState :=
  let dthalf := 0.5 * dt
  { s1 with
    higgsVel := fun i => if i < N3 then
        s1.higgsVel i + (accAt s0 0 i + accAt s1 0 i) * dthalf
      else s1.higgsVel i
    electronVel := fun i => if i < N3 then
        s1.electronVel i + (accAt s0 1 i + accAt s1 1 i) * dthalf
      else s1.electronVel i
    photonVel := fun i => if i < N3 then
        s1.photonVel i + (accAt s0 2 i + accAt s1 2 i) * dthalf
      else s1.photonVel i }

/-- Oracle for the heart-attractor `Math.random()` draws, indexed by the
loop position `ci` at which the source consumes them: `surfP` the
keep/skip draw for a surface cell, `surfK1`/`surfK2` the electron and
photon kick draws, `intP` the keep/skip draw for an interior cell. -/
structure HeartRand where
  surfP : ℕ → ℚ
  surfK1 : ℕ → ℚ
  surfK2 : ℕ → ℚ
  intP : ℕ → ℚ

/-- One surface-cell nudge of the heart attractor (body of the
`_heartSurfaceCells` loop): executed when the draw is not above `hs`. -/
def heartSurfaceCell (s : FieldState) (dt hs : ℚ) (r : HeartRand) (ci i : ℕ) :
    FieldState :=
  if hs < r.surfP ci then s
  else
    let surf := s.heartSurface i
    let ev1 := s.electronVel i + (surf * 0.7 - s.electron i) * hs * 0.5 * dt
    let ev2 := ev1 + (r.surfK1 ci - 0.5) * surf * hs * 0.6
    let pv1 := s.photonVel i + (r.surfK2 ci - 0.5) * surf * hs * 0.2
    { s with
      electronVel := Function.update s.electronVel i ev2
      photonVel := Function.update s.photonVel i pv1 }

/-- Fold of `heartSurfaceCell` over the surface-cell list, threading the
loop counter `ci`. -/
def heartSurfaceLoop (dt hs : ℚ) (r : HeartRand) :
    FieldState → ℕ → List ℕ → FieldState
  | s, _, [] => s
  | s, ci, i :: rest =>
      heartSurfaceLoop dt hs r (heartSurfaceCell s dt hs r ci i) (ci + 1) rest

/-- One interior-cell bias (body of the `_heartInteriorCells` loop):
executed when the draw is not above `hs·0.35`. -/
def heartInteriorCell (s : FieldState) (dt hs : ℚ) (r : HeartRand) (ci i : ℕ) :
    FieldState :=
  if hs * 0.35 < r.intP ci then s
  else
    { s with
      electronVel := Function.update s.electronVel i
        (s.electronVel i + (0.15 - s.electron i) * 0.25 * dt) }

/-- Fold of `heartInteriorCell` over the interior-cell list. -/
def heartInteriorLoop (dt hs : ℚ) (r : HeartRand) :
    FieldState → ℕ → List ℕ → FieldState
  | s, _, [] => s
  | s, ci, i :: rest =>
      heartInteriorLoop dt hs r (heartInteriorCell s dt hs r ci i) (ci + 1) rest

/-- Heart-attractor section of `QuantumField.update`: runs only when
`heartStrength > 0`. -/
def heartStage (s : FieldState) (dt : ℚ) (r : HeartRand) : FieldState :=
  if 0 < s.heartStrength then
    let s1 := heartSurfaceLoop dt s.heartStrength r s 0 s.heartSurfaceCells
    heartInteriorLoop dt s1.heartStrength r s1 0 s1.heartInteriorCells
  else s

/-- Final section of `QuantumField.update`: clamp every amplitude to
`[-5, 5]` (`Math.max(-5, Math.min(5, …))`). -/
def clampStage (s : FieldState) : FieldState :=
  { s with
    higgs := fun i => if i < N3 then max (-5) (min 5 (s.higgs i)) else s.higgs i
    electron := fun i => if i < N3 then max (-5) (min 5 (s.electron i)) else s.electron i
    photon := fun i => if i < N3 then max (-5) (min 5 (s.photon i)) else s.photon i }

/-- `QuantumField.update(dt)`: velocity-Verlet step, then the stochastic
heart-attractor nudges, then the hard clamp. -/
def fieldUpdate (s : FieldState) (dt : ℚ) (r : HeartRand) : FieldState :=
  let s1 := verletPosStage s dt
  let s2 := verletVelStage s s1 dt
  clampStage (heartStage s2 dt r)

/-! ### Consciousness.js — Orch-OR threshold collapse -/

/-- `Consciousness.updateOrchOR(dt)`: clear all flashes, then for every
cell add `(0.6·eAct + 0.4·pOsc − 0.5·|h − VEV|)·rate·dt` to its coherence,
clamp to `[0,1]`, and on reaching `threshold` set the flash and reset the
coherence to 0 in the same pass.  `threshold` and `rate` are the object's
`orchThreshold` and `orchGrowthRate` parameters. -/
def orchUpdate (s : FieldState) (threshold rate dt : ℚ) : FieldState :=
  let rdt := rate * dt
  let clamped := fun i =>
    let h := s.higgs i
    let e := s.electron i
    let p := s.photon i
    let ev := s.electronVel i
    let pv := s.photonVel i
    let electronActivity := e * e + ev * ev
    let photonOscillation := p * p + pv * pv
    let higgsDeviation := |h - VEV|
    let delta := (electronActivity * 0.6 + photonOscillation * 0.4
      - higgsDeviation * 0.5) * rdt
    max 0 (min 1 (s.orchCoherence i + delta))
  { s with
    orchCoherence := fun i => if i < N3 then
        (if threshold ≤ clamped i then 0 else clamped i)
      else s.orchCoherence i
    orchFlash := fun i => if i < N3 then
        (if threshold ≤ clamped i then 1 else 0)
      else s.orchFlash i }

/-- The additive coherence boost applied by `ParticleSystem.update` on
annihilation: `orchCoherence[ci] = Math.min(1, orchCoherence[ci] + 0.4)`. -/
def boostCoherence (c : ℚ) : ℚ := min 1 (c + 0.4)

/-! ### main.js — fixed-timestep driver -/

/-- `SIM_DT = 0.004` (250 Hz internal step). -/
def simDT : ℚ := 0.004

/-- `MAX_STEPS = 4` sub-steps per visual frame. -/
def maxSteps : ℕ := 4

/-- `MAX_WALL_DT = 0.05` (per-frame wall-clock intake cap, seconds). -/
def maxWallDT : ℚ := 0.05

/-- The `while (accumDt >= SIM_DT && steps < MAX_STEPS)` loop of
`animate`, with `fuel` the number of allowed sub-steps remaining.
Returns the leftover accumulator and the number of steps taken. -/
def simLoop : ℚ → ℕ → ℚ × ℕ
  | acc, 0 => (acc, 0)
  | acc, fuel + 1 =>
      if simDT ≤ acc then
        let r := simLoop (acc - simDT) fuel
        (r.1, r.2 + 1)
      else (acc, 0)

/-- One `animate` frame's accumulator handling: `elapsedMs` is
`now - lastTime` in milliseconds; the frame adds
`min(elapsedMs · 0.001, MAX_WALL_DT)` to the accumulator and consumes at
most `MAX_STEPS` fixed steps from it. -/
def frameAdvance (accum elapsedMs : ℚ) : ℚ × ℕ :=
  simLoop (accum + min (elapsedMs * 0.001) maxWallDT) maxSteps

/-! ### Specification-side integrator (for the refinement claim C4)

These definitions follow the wording of spec §4.1: discrete Laplacian
`L[f] = Σ neighbors f − 6f`, the three acceleration laws, position update
`x += v·dt + ½a·dt²`, recomputation of accelerations at the new state,
velocity update `v += ½(a_old+a_new)·dt`, amplitudes clamped to the hard
range afterwards. -/

/-- Spec §4.1: periodic 6-neighbor discrete Laplacian, sum of the
neighbors minus six times the cell. -/
def specLaplacian (f : ℕ → ℚ) (x y z : ℤ) : ℚ :=
  f (idx (x + 1) y z) + f (idx (x - 1) y z) + f (idx x (y + 1) z)
    + f (idx x (y - 1) z) + f (idx x y (z + 1)) + f (idx x y (z - 1))
    - 6 * f (idx x y z)

/-- Spec §4.1 higgs law: `a = c1·L[higgs] − (higgs−vev)·(higgs²−vev²)·c2 −
c3·electron²` with the defaults `c1=0.3, c2=0.4, c3=0.1`. -/
def specAccelHiggs (s : FieldState) (i : ℕ) : ℚ :=
  let c := coords i
  0.3 * specLaplacian s.higgs c.1 c.2.1 c.2.2
    - (s.higgs i - VEV) * (s.higgs i * s.higgs i - VEV * VEV) * 0.4
    - 0.1 * (s.electron i * s.electron i)

/-- Spec §4.1 electron law: `a = c4·L[electron] − c5·electron −
c6·higgs·electron` with `c4=0.5, c5=0.2, c6=0.3`. -/
def specAccelElectron (s : FieldState) (i : ℕ) : ℚ :=
  let c := coords i
  0.5 * specLaplacian s.electron c.1 c.2.1 c.2.2
    - 0.2 * s.electron i - 0.3 * (s.higgs i * s.electron i)

/-- Spec §4.1 photon law: `a = c7·L[photon] − damping·photonVelocity +
c8·electronVelocity` with `c7=1, damping=0.05, c8=0.2`. -/
def specAccelPhoton (s : FieldState) (i : ℕ) : ℚ :=
  let c := coords i
  1 * specLaplacian s.photon c.1 c.2.1 c.2.2
    - 0.05 * s.photonVel i + 0.2 * s.electronVel i

/-- Spec §4.1: advance positions by `x += v·dt + ½a·dt²`, accelerations
from the current state. -/
def specPosition (s : FieldState) (dt : ℚ) : FieldState :=
  { s with
    higgs := fun i => if i < N3 then
        s.higgs i + s.higgsVel i * dt + specAccelHiggs s i * dt * dt / 2
      else s.higgs i
    electron := fun i => if i < N3 then
        s.electron i + s.electronVel i * dt + specAccelElectron s i * dt * dt / 2
      else s.electron i
    photon := fun i => if i < N3 then
        s.photon i + s.photonVel i * dt + specAccelPhoton s i * dt * dt / 2
      else s.photon i }

/-- Spec §4.1 full step: positions advanced, accelerations recomputed at
the new state (velocities not yet advanced), velocities advanced by the
trapezoidal average `v += ½(a_old+a_new)·dt`, amplitudes hard-clamped. -/
def specVerletStep (s : FieldState) (dt : ℚ) : FieldState :=
  let s1 := specPosition s dt
  { s1 with
    higgs := fun i => if i < N3 then max (-5) (min 5 (s1.higgs i)) else s1.higgs i
    electron := fun i => if i < N3 then max (-5) (min 5 (s1.electron i)) else s1.electron i
    photon := fun i => if i < N3 then max (-5) (min 5 (s1.photon i)) else s1.photon i
    higgsVel := fun i => if i < N3 then
        s.higgsVel i + (specAccelHiggs s i + specAccelHiggs s1 i) * dt / 2
      else s.higgsVel i
    electronVel := fun i => if i < N3 then
        s.electronVel i + (specAccelElectron s i + specAccelElectron s1 i) * dt / 2
      else s.electronVel i
    photonVel := fun i => if i < N3 then
        s.photonVel i + (specAccelPhoton s i + specAccelPhoton s1 i) * dt / 2
      else s.photonVel i }

/-! ### ParticleSystem.js — pool, virtual pairs, annihilation -/

/-- `MAX = 300`: pool capacity. -/
def MAX : ℕ := 300

/-- `ANNIHILATION_RADIUS = 1.5` world units. -/
def ANNIHILATION_RADIUS : ℚ := 1.5

/-- `DRAG = 0.99` multiplicative velocity drag. -/
def DRAG : ℚ := 0.99

/-- `MAX_FLASHES = 20`: size of the annihilation-flash ring buffer. -/
def MAX_FLASHES : ℕ := 20

/-- Particle type tags. -/
def TYPE_INACTIVE : ℕ := 0

/-- `TYPE_ELECTRON = 1`. -/
def TYPE_ELECTRON : ℕ := 1

/-- `TYPE_POSITRON = 2`. -/
def TYPE_POSITRON : ℕ := 2

/-- `TYPE_PHOTON = 3`. -/
def TYPE_PHOTON : ℕ := 3

/-- `TYPE_HIGGS = 4`. -/
def TYPE_HIGGS : ℕ := 4

/-- `TYPE_ANTI_HIGGS = 5`. -/
def TYPE_ANTI_HIGGS : ℕ := 5

/-- One annihilation-flash ring-buffer entry `{x, y, z, age, intensity}`. -/
@[ext]
structure Flash where
  x : ℚ
  y : ℚ
  z : ℚ
  age : ℚ
  intensity : ℚ

/-- State of a `ParticleSystem` instance.  Typed arrays are `ℕ → ℚ`
(`ℕ → ℕ` for the `Uint8Array` type tags, `ℕ → ℤ` for the `Int16Array`
relation fields whose "none" sentinel is `-1`).  The JS `Set` of active
indices is a list in insertion order; the free list is a stack with its
top at the head. -/
@[ext]
structure PoolState where
  px : ℕ → ℚ
  py : ℕ → ℚ
  pz : ℕ → ℚ
  vx : ℕ → ℚ
  vy : ℕ → ℚ
  vz : ℕ → ℚ
  colorR : ℕ → ℚ
  colorG : ℕ → ℚ
  colorB : ℕ → ℚ
  size : ℕ → ℚ
  alpha : ℕ → ℚ
  type : ℕ → ℕ
  age : ℕ → ℚ
  lifetime : ℕ → ℚ
  entangledWith : ℕ → ℤ
  pairWith : ℕ → ℤ
  freeList : List ℕ
  active : List ℕ
  flashes : ℕ → Flash
  flashHead : ℕ
  spawnAccum : ℚ
  injectionRate : ℚ

/-- Oracle for the `Math.random()` draws of one `spawnPair` call: `cand k`
are the three hotspot-candidate draws of round `k` (0 ≤ k < 8);
`vox`/`voy`/`voz` stand for the trigonometric direction components
`speed·sin φ·cos θ`, `speed·sin φ·sin θ`, `speed·cos φ`; `lifeR` the
lifetime draw; `jit n` the six positional jitter draws. -/
structure SpawnRand where
  cand : ℕ → ℚ × ℚ × ℚ
  vox : ℚ
  voy : ℚ
  voz : ℚ
  lifeR : ℚ
  jit : ℕ → ℚ

/-- Oracle for one decay photon of `_spawnAnnihilationPhotons`:
`vx`/`vy`/`vz` the trigonometric velocity components, `lifeR` the
lifetime draw. -/
structure PhotonRand where
  vx : ℚ
  vy : ℚ
  vz : ℚ
  lifeR : ℚ

/-- Oracle for one `ParticleSystem.update` call: `typeR j` the pair-type
draw of injection round `j`, `spawnR j` the draws of that round's
`spawnPair`, `photonR c` the draws for the `c`-th decay photon spawned
during this call. -/
structure UpdateRand where
  typeR : ℕ → ℚ
  spawnR : ℕ → SpawnRand
  photonR : ℕ → PhotonRand

/-- JavaScript `| 0` truncation toward zero. -/
def jsTrunc (q : ℚ) : ℤ := if 0 ≤ q then ⌊q⌋ else ⌈q⌉

/-- JS `Set.add`: append if not already present (insertion order kept). -/
def listAdd (l : List ℕ) (x : ℕ) : List ℕ := if x ∈ l then l else l ++ [x]

/-- JS `Set.has` applied to a possibly negative index. -/
def hasZ (l : List ℕ) (z : ℤ) : Bool := l.any fun j => (j : ℤ) == z

/-- `_alloc()`: pop the free-list top into the active set; `none` when the
pool is exhausted (the source returns `-1`). -/
def allocP (s : PoolState) : PoolState × Option ℕ :=
  match s.freeList with
  | [] => (s, none)
  | h :: t => ({ s with freeList := t, active := listAdd s.active h }, some h)

/-- `_free(idx)`: deactivate the slot, clear its relation fields, return
it to the free list. -/
def freeP (s : PoolState) (i : ℕ) : PoolState :=
  { s with
    type := Function.update s.type i TYPE_INACTIVE
    alpha := Function.update s.alpha i 0
    entangledWith := Function.update s.entangledWith i (-1)
    pairWith := Function.update s.pairWith i (-1)
    active := s.active.erase i
    freeList := i :: s.freeList }

/-- `_nearestCell(wx, wy, wz)`: clamp the truncated grid coordinates to
`[0, N-1]` and flatten. -/
def nearestCell (wx wy wz : ℚ) : ℕ :=
  let scale : ℚ := N / (2 * WORLD_RANGE)
  let x := (max 0 (min ((N : ℤ) - 1) (jsTrunc ((wx + WORLD_RANGE) * scale)))).toNat
  let y := (max 0 (min ((N : ℤ) - 1) (jsTrunc ((wy + WORLD_RANGE) * scale)))).toNat
  let z := (max 0 (min ((N : ℤ) - 1) (jsTrunc ((wz + WORLD_RANGE) * scale)))).toNat
  x + y * N + z * N2

/-- `_higgsGrad(wx, wy, wz)`: centered difference of the higgs channel at
the grid cell clamped to `[1, N-2]` on each axis. -/
def higgsGrad (f : FieldState) (wx wy wz : ℚ) : ℚ × ℚ × ℚ :=
  let scale : ℚ := N / (2 * WORLD_RANGE)
  let gx := (max 1 (min ((N : ℤ) - 2) (jsTrunc ((wx + WORLD_RANGE) * scale)))).toNat
  let gy := (max 1 (min ((N : ℤ) - 2) (jsTrunc ((wy + WORLD_RANGE) * scale)))).toNat
  let gz := (max 1 (min ((N : ℤ) - 2) (jsTrunc ((wz + WORLD_RANGE) * scale)))).toNat
  ((f.higgs ((gx + 1) + gy * N + gz * N2) - f.higgs ((gx - 1) + gy * N + gz * N2)) * 0.5,
   (f.higgs (gx + (gy + 1) * N + gz * N2) - f.higgs (gx + (gy - 1) * N + gz * N2)) * 0.5,
   (f.higgs (gx + gy * N + (gz + 1) * N2) - f.higgs (gx + gy * N + (gz - 1) * N2)) * 0.5)

/-- One round of `_sampleHotspot`'s best-of-8 loop: draw a random cell,
keep it if its energy `h²+e²+p²` beats the best so far. -/
def hotspotRound (f : FieldState) (sr : SpawnRand) (best : ℚ × ℕ × ℕ × ℕ) (k : ℕ) :
    ℚ × ℕ × ℕ × ℕ :=
  let c := sr.cand k
  let x := (jsTrunc (c.1 * N)).toNat
  let y := (jsTrunc (c.2.1 * N)).toNat
  let z := (jsTrunc (c.2.2 * N)).toNat
  let gi := x + y * N + z * N2
  let h := f.higgs gi
  let e := f.electron gi
  let p := f.photon gi
  let energy := h * h + e * e + p * p
  if best.1 < energy then (energy, x, y, z) else best

/-- `_sampleHotspot()`: best of 8 random cells by local energy, starting
from `bestEnergy = -1`, returned as a world position. -/
def sampleHotspot (f : FieldState) (sr : SpawnRand) : ℚ × ℚ × ℚ :=
  let best := (List.range 8).foldl (hotspotRound f sr) (-1, 0, 0, 0)
  let scale : ℚ := (2 * WORLD_RANGE) / N
  (((best.2.1 : ℚ) - N / 2 + 0.5) * scale,
   ((best.2.2.1 : ℚ) - N / 2 + 0.5) * scale,
   ((best.2.2.2 : ℚ) - N / 2 + 0.5) * scale)

/-- `_typeSize(type)`. -/
def typeSize (t : ℕ) : ℚ :=
  if t = TYPE_PHOTON then 6
  else if t = TYPE_HIGGS ∨ t = TYPE_ANTI_HIGGS then 8
  else 5

/-- `_setColor(i, type)` (types outside the switch leave the color
untouched). -/
def setColor (s : PoolState) (i t : ℕ) : PoolState :=
  if t = TYPE_ELECTRON then
    { s with colorR := Function.update s.colorR i 0.2
             colorG := Function.update s.colorG i 0.4
             colorB := Function.update s.colorB i 1.0 }
  else if t = TYPE_POSITRON then
    { s with colorR := Function.update s.colorR i 1.0
             colorG := Function.update s.colorG i 0.2
             colorB := Function.update s.colorB i 0.2 }
  else if t = TYPE_PHOTON then
    { s with colorR := Function.update s.colorR i 1.0
             colorG := Function.update s.colorG i 0.85
             colorB := Function.update s.colorB i 0.2 }
  else if t = TYPE_HIGGS then
    { s with colorR := Function.update s.colorR i 0.7
             colorG := Function.update s.colorG i 0.2
             colorB := Function.update s.colorB i 1.0 }
  else if t = TYPE_ANTI_HIGGS then
    { s with colorR := Function.update s.colorR i 0.0
             colorG := Function.update s.colorG i 0.9
             colorB := Function.update s.colorB i 1.0 }
  else s

/-- Body of `spawnPair`'s per-slot loop (`[idx, t, sv]`): position with
positional jitter `(draw − 0.5)·0.3`, velocity `sv`-signed along the
shared direction, fresh age/lifetime/alpha/size/color. -/
def spawnBody (s : PoolState) (i t : ℕ) (sv cx cy cz vox voy voz life j0 j1 j2 : ℚ) :
    PoolState :=
  let s1 := { s with
    px := Function.update s.px i (cx + (j0 - 0.5) * 0.3)
    py := Function.update s.py i (cy + (j1 - 0.5) * 0.3)
    pz := Function.update s.pz i (cz + (j2 - 0.5) * 0.3)
    vx := Function.update s.vx i (sv * vox)
    vy := Function.update s.vy i (sv * voy)
    vz := Function.update s.vz i (sv * voz)
    type := Function.update s.type i t
    age := Function.update s.age i 0
    lifetime := Function.update s.lifetime i life
    alpha := Function.update s.alpha i 1
    size := Function.update s.size i (typeSize t) }
  setColor s1 i t

/-- `spawnPair(typeA, typeB)`: sample a hotspot, allocate two slots (on
failure, roll back whichever slot was allocated and return silently),
fill both slots from the shared draws, and link them via `pairWith` and
`entangledWith`. -/
def spawnPair (s : PoolState) (f : FieldState) (sr : SpawnRand) (typeA typeB : ℕ) :
    PoolState :=
  let c := sampleHotspot f sr
  let r1 := allocP s
  let r2 := allocP r1.1
  match r1.2, r2.2 with
  | some a, some b =>
      let life := 1.0 + sr.lifeR * 3.0
      let s3 := spawnBody r2.1 a typeA 1 c.1 c.2.1 c.2.2 sr.vox sr.voy sr.voz life
        (sr.jit 0) (sr.jit 1) (sr.jit 2)
      let s4 := spawnBody s3 b typeB (-1) c.1 c.2.1 c.2.2 sr.vox sr.voy sr.voz life
        (sr.jit 3) (sr.jit 4) (sr.jit 5)
      { s4 with
        pairWith := Function.update (Function.update s4.pairWith a (b : ℤ)) b (a : ℤ)
        entangledWith :=
          Function.update (Function.update s4.entangledWith a (b : ℤ)) b (a : ℤ) }
  | some a, none => freeP r2.1 a
  | none, some b => freeP r2.1 b
  | none, none => r2.1

/-- Field initialization of one decay photon in slot `i` (the body of
`_spawnAnnihilationPhotons`'s loop after a successful allocation). -/
def photonSlotInit (s : PoolState) (i : ℕ) (x y z : ℚ) (pR : PhotonRand) :
    PoolState :=
  let s1 := { s with
    px := Function.update s.px i x
    py := Function.update s.py i y
    pz := Function.update s.pz i z
    vx := Function.update s.vx i pR.vx
    vy := Function.update s.vy i pR.vy
    vz := Function.update s.vz i pR.vz
    type := Function.update s.type i TYPE_PHOTON
    age := Function.update s.age i 0
    lifetime := Function.update s.lifetime i (0.4 + pR.lifeR * 0.4)
    alpha := Function.update s.alpha i 1
    size := Function.update s.size i 6 }
  let s2 := setColor s1 i TYPE_PHOTON
  { s2 with
    entangledWith := Function.update s2.entangledWith i (-1)
    pairWith := Function.update s2.pairWith i (-1) }

/-- `_spawnAnnihilationPhotons(x, y, z)`: up to `k` decay photons at the
annihilation point (the source's `k = 3`); stops early when allocation
fails.  `ctr` counts photons spawned so far in this update call (oracle
index); the updated counter is returned. -/
def spawnPhotons (pr : ℕ → PhotonRand) (x y z : ℚ) :
    PoolState → ℕ → ℕ → PoolState × ℕ
  | s, ctr, 0 => (s, ctr)
  | s, ctr, k + 1 =>
      let r := allocP s
      match r.2 with
      | none => (s, ctr)
      | some i => spawnPhotons pr x y z (photonSlotInit r.1 i x y z (pr ctr)) (ctr + 1) k

/-- `_emitFlash(x, y, z)`: overwrite the round-robin ring-buffer slot. -/
def emitFlash (s : PoolState) (x y z : ℚ) : PoolState :=
  { s with
    flashes := Function.update s.flashes (s.flashHead % MAX_FLASHES)
      ⟨x, y, z, 0, 1⟩
    flashHead := s.flashHead + 1 }

/-- A deferred death record `[i, partner, doFlash]` pushed to
`toAnnihilate` during the per-particle loop. -/
abbrev Entry := ℕ × ℤ × Bool

/-- Physics part of the per-particle loop body for slot `i`: age,
higgs-gradient force, drag, motion, periodic wrap, end-of-life fade. -/
def integratePhys (f : FieldState) (dt : ℚ) (s : PoolState) (i : ℕ) : PoolState :=
  let age1 := s.age i + dt
  let g := higgsGrad f (s.px i) (s.py i) (s.pz i)
  let force : ℚ := 0.3
  let vx1 := (s.vx i - g.1 * force * dt) * DRAG
  let vy1 := (s.vy i - g.2.1 * force * dt) * DRAG
  let vz1 := (s.vz i - g.2.2 * force * dt) * DRAG
  let px1 := s.px i + vx1 * dt
  let py1 := s.py i + vy1 * dt
  let pz1 := s.pz i + vz1 * dt
  let px2 := if WORLD_RANGE < px1 then px1 - 2 * WORLD_RANGE else px1
  let px3 := if px2 < -WORLD_RANGE then px2 + 2 * WORLD_RANGE else px2
  let py2 := if WORLD_RANGE < py1 then py1 - 2 * WORLD_RANGE else py1
  let py3 := if py2 < -WORLD_RANGE then py2 + 2 * WORLD_RANGE else py2
  let pz2 := if WORLD_RANGE < pz1 then pz1 - 2 * WORLD_RANGE else pz1
  let pz3 := if pz2 < -WORLD_RANGE then pz2 + 2 * WORLD_RANGE else pz2
  let remaining := s.lifetime i - age1
  let alpha1 := if remaining < 0.5 then max 0 (remaining / 0.5) else s.alpha i
  { s with
    age := Function.update s.age i age1
    vx := Function.update s.vx i vx1
    vy := Function.update s.vy i vy1
    vz := Function.update s.vz i vz1
    px := Function.update s.px i px3
    py := Function.update s.py i py3
    pz := Function.update s.pz i pz3
    alpha := Function.update s.alpha i alpha1 }

/-- Death/annihilation record of the per-particle loop body: either a
natural-death record (skipping the proximity check), an annihilation
record (only evaluated from the lower-indexed side, with squared
distances on the current — already moved — positions), or none. -/
def integrateEntry (f : FieldState) (dt : ℚ) (s : PoolState) (i : ℕ) : Option Entry :=
  let age1 := s.age i + dt
  if s.lifetime i ≤ age1 then
    let partner := s.entangledWith i
    if partner ≠ -1 ∧ hasZ s.active partner then some (i, partner, false)
    else some (i, -1, false)
  else
    let pair := s.pairWith i
    if pair ≠ -1 ∧ (i : ℤ) < pair ∧ hasZ s.active pair then
      let s1 := integratePhys f dt s i
      let dx := s1.px i - s1.px pair.toNat
      let dy := s1.py i - s1.py pair.toNat
      let dz := s1.pz i - s1.pz pair.toNat
      if dx * dx + dy * dy + dz * dz < ANNIHILATION_RADIUS * ANNIHILATION_RADIUS then
        some (i, pair, true)
      else none
    else none

/-- Body of the per-particle loop of `ParticleSystem.update` for slot `i`
(inactive slots are skipped entirely). -/
def integrateOne (f : FieldState) (dt : ℚ) (s : PoolState) (i : ℕ) :
    PoolState × Option Entry :=
  if s.type i = TYPE_INACTIVE then (s, none)
  else (integratePhys f dt s i, integrateEntry f dt s i)

/-- The `for (const i of this.active)` loop: fold `integrateOne` over the
active list (iteration order = insertion order; the set itself is not
mutated during the loop), collecting the `toAnnihilate` records in push
order. -/
def classify (f : FieldState) (dt : ℚ) : PoolState → List ℕ → PoolState × List Entry
  | s, [] => (s, [])
  | s, i :: rest =>
      let r := integrateOne f dt s i
      let rr := classify f dt r.1 rest
      (rr.1, match r.2 with
        | some e => e :: rr.2
        | none => rr.2)

/-- Processing of one `toAnnihilate` record `[a, b, doFlash]`: skip if `a`
was already freed; otherwise compute the midpoint, on `doFlash` spawn the
decay photons, emit a flash and boost the nearest cell's coherence, then
free `a` and (if still active) `b`. -/
def processOne (pr : ℕ → PhotonRand) (s : PoolState) (f : FieldState) (ctr : ℕ)
    (e : Entry) : PoolState × FieldState × ℕ :=
  let a := e.1
  let b := e.2.1
  if a ∈ s.active then
    let ax := (s.px a + (if b ≠ -1 then s.px b.toNat else s.px a)) * 0.5
    let ay := (s.py a + (if b ≠ -1 then s.py b.toNat else s.py a)) * 0.5
    let az := (s.pz a + (if b ≠ -1 then s.pz b.toNat else s.pz a)) * 0.5
    let next :=
      if e.2.2 then
        let sp := spawnPhotons pr ax ay az s ctr 3
        let se := emitFlash sp.1 ax ay az
        let ci := nearestCell ax ay az
        (se, { f with orchCoherence :=
          Function.update f.orchCoherence ci (boostCoherence (f.orchCoherence ci)) }, sp.2)
      else (s, f, ctr)
    let s2 := freeP next.1 a
    let s3 := if b ≠ -1 ∧ hasZ s2.active b then freeP s2 b.toNat else s2
    (s3, next.2.1, next.2.2)
  else (s, f, ctr)

/-- Fold of `processOne` over the `toAnnihilate` list. -/
def processAll (pr : ℕ → PhotonRand) :
    PoolState → FieldState → ℕ → List Entry → PoolState × FieldState × ℕ
  | s, f, ctr, [] => (s, f, ctr)
  | s, f, ctr, e :: rest =>
      let r := processOne pr s f ctr e
      processAll pr r.1 r.2.1 r.2.2 rest

/-- Final loop of `ParticleSystem.update`: age every ring-buffer flash
younger than 2 seconds. -/
def flashAging (s : PoolState) (dt : ℚ) : PoolState :=
  { s with flashes := fun k =>
      let fl := s.flashes k
      if fl.age < 2 then { fl with age := fl.age + dt } else fl }

/-- The `while (this._spawnAccum >= 1.0)` injection loop, run `k` times
(`k = ⌊accumulator⌋` for a nonnegative accumulator), choosing each pair's
species from the type draw (`< 0.5` electron/positron, `< 0.8` boson
pair, else electron/positron again). -/
def spawnLoop (f : FieldState) (R : UpdateRand) : PoolState → ℕ → ℕ → PoolState
  | s, _, 0 => s
  | s, j, k + 1 =>
      let r := R.typeR j
      let s1 :=
        if r < 0.5 then spawnPair s f (R.spawnR j) TYPE_ELECTRON TYPE_POSITRON
        else if r < 0.8 then spawnPair s f (R.spawnR j) TYPE_HIGGS TYPE_ANTI_HIGGS
        else spawnPair s f (R.spawnR j) TYPE_ELECTRON TYPE_POSITRON
      spawnLoop f R s1 (j + 1) k

/-- `ParticleSystem.update(dt)`: advance the injection accumulator and
spawn the due pairs, run the per-particle loop collecting `toAnnihilate`,
process the deferred deaths/annihilations (which may write the field's
coherence channel), and age the flash ring.  Returns the new pool state
and the (possibly coherence-boosted) field state. -/
def psUpdate (s : PoolState) (f : FieldState) (dt : ℚ) (R : UpdateRand) :
    PoolState × FieldState :=
  let accum := s.spawnAccum + s.injectionRate * dt
  let k := (⌊accum⌋).toNat
  let s0 := { s with spawnAccum := accum - k }
  let s1 := spawnLoop f R s0 0 k
  let cl := classify f dt s1 s1.active
  let pro := processAll R.photonR cl.1 f 0 cl.2
  (flashAging pro.1 dt, pro.2.1)

/-- `allDead()`: the active set is empty. -/
def allDead (s : PoolState) : Prop := s.active = []

/-- The pairing-symmetry invariant of claim C7: every live slot with a
non-`-1` `pairWith` points to a distinct live slot whose own `pairWith`
points back. -/
def pairSym (s : PoolState) : Prop :=
  ∀ i ∈ s.active, s.pairWith i ≠ -1 →
    0 ≤ s.pairWith i ∧ (s.pairWith i).toNat ≠ i ∧ (s.pairWith i).toNat ∈ s.active ∧
      s.pairWith (s.pairWith i).toNat = (i : ℤ)

/-- Well-formedness of a reachable pool state: the active list and the
free list are duplicate-free, disjoint and within capacity; every
non-active slot carries cleared relation fields, inactive type and zero
alpha; `entangledWith` mirrors `pairWith`; and the pairing relation is
symmetric. -/
def wfPool (s : PoolState) : Prop :=
  s.active.Nodup ∧
  s.freeList.Nodup ∧
  (∀ i ∈ s.active, i ∉ s.freeList) ∧
  (∀ i ∈ s.active, i < MAX) ∧
  (∀ i ∈ s.freeList, i < MAX) ∧
  (∀ i < MAX, i ∉ s.active →
    s.pairWith i = -1 ∧ s.entangledWith i = -1 ∧ s.type i = TYPE_INACTIVE ∧
      s.alpha i = 0) ∧
  (∀ i < MAX, s.entangledWith i = s.pairWith i) ∧
  pairSym s

/-- Shape of a `toAnnihilate` record relative to the pairing function
`p0` and active list at classification time: either a solo natural death
of an unpaired slot, or a record carrying the mutual partner. -/
def EntOK (p0 : ℕ → ℤ) (act : List ℕ) (e : Entry) : Prop :=
  (e.2.1 = -1 ∧ p0 e.1 = -1) ∨
  (0 ≤ e.2.1 ∧ e.2.1 = p0 e.1 ∧ p0 (e.2.1).toNat = (e.1 : ℤ) ∧
    (e.2.1).toNat ∈ act ∧ (e.2.1).toNat ≠ e.1)

/-- During annihilation processing, every slot's `pairWith` is either its
classification-time value or already cleared. -/
def pairDecay (p0 : ℕ → ℤ) (s : PoolState) : Prop :=
  ∀ i, s.pairWith i = p0 i ∨ s.pairWith i = -1

/-! ### ShapeConstraint.js — STL parsing, voxelization, blur -/

/-- `CELL_SIZE = 2·WORLD_RANGE / N` (1 world unit per cell for N = 28). -/
def CELL_SIZE : ℚ := (2 * WORLD_RANGE) / N

/-- A raw byte buffer (each entry one byte value, 0–255). -/
abbrev Buf := List ℕ

/-- `DataView` byte read (the source's reads are guarded by the explicit
length checks modeled in `parseSTL`/`parseBinarySTL`). -/
def getByte (buf : Buf) (k : ℕ) : ℕ := buf.getD k 0

/-- Little-endian `getUint32`. -/
def u32le (buf : Buf) (off : ℕ) : ℕ :=
  getByte buf off + getByte buf (off + 1) * 256 + getByte buf (off + 2) * 65536
    + getByte buf (off + 3) * 16777216

/-- Little-endian `getFloat32`: exact IEEE-754 single decoding into `ℚ`.
`Infinity`/`NaN` bit patterns (not representable in `ℚ`) are mapped to 0;
they can only affect vertex coordinate values, never parse success. -/
def f32At (buf : Buf) (off : ℕ) : ℚ :=
  let bits := u32le buf off
  let ex := bits / 8388608 % 256
  let man := bits % 8388608
  let sgn : ℚ := if bits / 2147483648 = 1 then -1 else 1
  if ex = 255 then 0
  else if ex = 0 then sgn * man * (2 : ℚ) ^ (-(149 : ℤ))
  else sgn * ((8388608 + man : ℕ) : ℚ) * (2 : ℚ) ^ ((ex : ℤ) - 150)

/-- `parseBinarySTL(buf)`: triangle count from the header, truncation
check `byteLength < 84 + count·50`, then per triangle skip the 12-byte
normal and read the 9 vertex floats (2 attribute bytes skipped). -/
def parseBinarySTL (buf : Buf) : Except String (List ℚ × ℕ) :=
  let count := u32le buf 80
  if buf.length < 84 + count * 50 then .error "Truncated binary STL"
  else
    let verts := (List.range count).flatMap fun t =>
      (List.range 3).flatMap fun v =>
        let off := 84 + t * 50 + 12 + v * 12
        [f32At buf off, f32At buf (off + 4), f32At buf (off + 8)]
    .ok (verts, count)

/-- Lower-case an ASCII byte (for the regex's `i` flag). -/
def toLowerByte (c : ℕ) : ℕ := if 65 ≤ c ∧ c ≤ 90 then c + 32 else c

/-- ASCII whitespace byte (regex `\s`). -/
def isSpaceB (c : ℕ) : Bool :=
  c = 32 || c = 9 || c = 10 || c = 11 || c = 12 || c = 13

/-- A byte of the regex number class `[\d.eE+\-]`. -/
def isNumB (c : ℕ) : Bool :=
  (48 ≤ c && c ≤ 57) || c = 46 || c = 101 || c = 69 || c = 43 || c = 45

/-- A decimal digit byte. -/
def isDigitB (c : ℕ) : Bool := 48 ≤ c && c ≤ 57

/-- Value of a digit string. -/
def digitsVal (l : List ℕ) : ℕ := l.foldl (fun acc c => acc * 10 + (c - 48)) 0

/-- JS `Number(token)` applied to a captured `[\d.eE+\-]+` token:
optional sign, integer part, optional fraction, optional exponent.
Tokens that are not a valid JS numeric literal convert to `NaN`, which is
not representable in `ℚ` and is mapped to 0; this can only affect vertex
coordinate values, never the vertex-record count. -/
def jsNum (tok : List ℕ) : ℚ :=
  let s1 : ℚ × List ℕ :=
    match tok with
    | 43 :: r => (1, r)
    | 45 :: r => (-1, r)
    | r => (1, r)
  let intPart := s1.2.takeWhile isDigitB
  let r2 := s1.2.dropWhile isDigitB
  let fracPart :=
    match r2 with
    | 46 :: r3 => r3.takeWhile isDigitB
    | _ => []
  let r4 :=
    match r2 with
    | 46 :: r3 => r3.dropWhile isDigitB
    | _ => r2
  if intPart = [] ∧ fracPart = [] then 0
  else
    let mantissa : ℚ := (digitsVal intPart : ℚ)
      + (digitsVal fracPart : ℚ) / (10 : ℚ) ^ fracPart.length
    match r4 with
    | [] => s1.1 * mantissa
    | c :: r5 =>
        if c = 101 ∨ c = 69 then
          let s2 : ℚ × List ℕ :=
            match r5 with
            | 43 :: r6 => (1, r6)
            | 45 :: r6 => (-1, r6)
            | r6 => (1, r6)
          let expDigits := s2.2.takeWhile isDigitB
          if expDigits = [] ∨ s2.2.dropWhile isDigitB ≠ [] then 0
          else
            let e : ℤ := (if s2.1 = 1 then 1 else -1) * (digitsVal expDigits : ℤ)
            s1.1 * mantissa * (10 : ℚ) ^ e
        else 0

/-- Consume at least one whitespace byte (regex `\s+`), then any more. -/
def dropSpaces1 (l : List ℕ) : Option (List ℕ) :=
  match l with
  | c :: rest => if isSpaceB c then some (rest.dropWhile isSpaceB) else none
  | [] => none

/-- Capture a maximal nonempty `[\d.eE+\-]+` token. -/
def takeNum1 (l : List ℕ) : Option (List ℕ × List ℕ) :=
  match l with
  | c :: _ =>
      if isNumB c then some (l.takeWhile isNumB, l.dropWhile isNumB) else none
  | [] => none

/-- Try to match `vertex\s+(tok)\s+(tok)\s+(tok)` (case-insensitive) at
the head of the byte list; on success return the three converted numbers
and the remaining input after the match. -/
def matchVertexAt (l : List ℕ) : Option (ℚ × ℚ × ℚ × List ℕ) :=
  match l with
  | a :: b :: c :: d :: e :: f :: rest =>
      if toLowerByte a = 118 ∧ toLowerByte b = 101 ∧ toLowerByte c = 114
          ∧ toLowerByte d = 116 ∧ toLowerByte e = 101 ∧ toLowerByte f = 120 then
        (dropSpaces1 rest).bind fun r1 =>
        (takeNum1 r1).bind fun t1 =>
        (dropSpaces1 t1.2).bind fun r2 =>
        (takeNum1 r2).bind fun t2 =>
        (dropSpaces1 t2.2).bind fun r3 =>
        (takeNum1 r3).bind fun t3 =>
        some (jsNum t1.1, jsNum t2.1, jsNum t3.1, t3.2)
      else none
  | _ => none

/-- The global-regex scan loop (`while ((m = re.exec(text)) !== null)`):
at each position try the vertex pattern; on a match push the three
numbers and continue after the match, otherwise advance one byte.  The
fuel argument (called with the input length) only serves termination;
each step consumes at least one byte. -/
def scanVertices : ℕ → List ℕ → List ℚ
  | 0, _ => []
  | _, [] => []
  | fuel + 1, c :: rest =>
      match matchVertexAt (c :: rest) with
      | some r => r.1 :: r.2.1 :: r.2.2.1 :: scanVertices fuel r.2.2.2
      | none => scanVertices fuel rest

/-- `parseASCIISTL(buf)`: extract all `vertex x y z` records; fewer than
9 numbers (3 full vertices) is a parse error; surplus numbers beyond a
whole triangle are dropped.  (`TextDecoder` is modeled by reading the
bytes directly: every byte of the patterns involved is ASCII.) -/
def parseASCIISTL (buf : Buf) : Except String (List ℚ × ℕ) :=
  let arr := scanVertices buf.length buf
  if arr.length < 9 then .error "No vertices in ASCII STL"
  else
    let count := arr.length / 9
    .ok (arr.take (count * 9), count)

/-- `parseSTL(buf)`: binary iff the triangle-count header exactly accounts
for the byte length (`count > 0 && byteLength === 84 + count·50`); the
source's `try` around the header read (which throws for buffers shorter
than 84 bytes) is modeled by the explicit length guard.  Anything else
falls through to the ASCII parser. -/
def parseSTL (buf : Buf) : Except String (List ℚ × ℕ) :=
  let count := u32le buf 80
  if 84 ≤ buf.length ∧ 0 < count ∧ buf.length = 84 + count * 50 then
    parseBinarySTL buf
  else parseASCIISTL buf

/-- `_bboxCenter`'s accumulator: running (minX, maxX, minY, maxY, minZ,
maxZ). -/
def bboxFold : List ℚ → ℚ × ℚ × ℚ × ℚ × ℚ × ℚ → ℚ × ℚ × ℚ × ℚ × ℚ × ℚ
  | x :: y :: z :: rest, acc =>
      bboxFold rest
        (min acc.1 x, max acc.2.1 x, min acc.2.2.1 y, max acc.2.2.2.1 y,
         min acc.2.2.2.2.1 z, max acc.2.2.2.2.2 z)
  | _, acc => acc

/-- `{ cx, cy, cz, maxSpan }` of `_bboxCenter`. -/
@[ext]
structure Center where
  cx : ℚ
  cy : ℚ
  cz : ℚ
  maxSpan : ℚ

/-- `_bboxCenter(verts)` (initial bounds `±1e9` as in the source). -/
def bboxCenter (verts : List ℚ) : Center :=
  let b := bboxFold verts (1000000000, -1000000000, 1000000000, -1000000000,
    1000000000, -1000000000)
  { cx := (b.1 + b.2.1) / 2
    cy := (b.2.2.1 + b.2.2.2.1) / 2
    cz := (b.2.2.2.2.1 + b.2.2.2.2.2) / 2
    maxSpan := max (b.2.1 - b.1) (max (b.2.2.2.1 - b.2.2.1) (b.2.2.2.2.2 - b.2.2.2.2.1)) }

/-- `_autoScaleFactor`: longest axis to 70% of the field diameter. -/
def autoScaleFactor (c : Center) : ℚ :=
  let target := WORLD_RANGE * 2 * 0.70
  if 0 < c.maxSpan then target / c.maxSpan else 1.0

/-- `_applyTransform`: center and scale the raw vertices. -/
def applyVerts (raw : List ℚ) (c : Center) (s : ℚ) : List ℚ :=
  let rec go : List ℚ → List ℚ
    | x :: y :: z :: rest => (x - c.cx) * s :: (y - c.cy) * s :: (z - c.cz) * s :: go rest
    | l => l
  go raw

/-- Flat-list vertex component read (`Float32Array` indexing). -/
def vAt (verts : List ℚ) (k : ℕ) : ℚ := verts.getD k 0

/-- `triRayY(rx, rz, verts, base)`: vertical-ray / triangle intersection
via barycentric coordinates in the XZ plane; `none` for degenerate
(horizontal) triangles or rays outside the projection. -/
def triRayY (rx rz : ℚ) (verts : List ℚ) (base : ℕ) : Option ℚ :=
  let ax := vAt verts base
  let ay := vAt verts (base + 1)
  let az := vAt verts (base + 2)
  let bx := vAt verts (base + 3)
  let by_ := vAt verts (base + 4)
  let bz := vAt verts (base + 5)
  let cx := vAt verts (base + 6)
  let cy := vAt verts (base + 7)
  let cz := vAt verts (base + 8)
  let denom := (bz - cz) * (ax - cx) + (cx - bx) * (az - cz)
  if |denom| < 1 / 10000000000 then none
  else
    let u := ((bz - cz) * (rx - cx) + (cx - bx) * (rz - cz)) / denom
    let v := ((cz - az) * (rx - cx) + (ax - cx) * (rz - cz)) / denom
    let w := 1 - u - v
    if u < -(1 / 1000000) ∨ v < -(1 / 1000000) ∨ w < -(1 / 1000000) then none
    else some (u * ay + v * by_ + w * cy)

/-- XZ bounding-box culling of `_columnScan`: triangle `t` is a candidate
for column `(gx, gz)` iff the column lies in the triangle's clamped grid
bounding box (the source precomputes per-column lists; membership is
equivalent). -/
def triInColumn (verts : List ℚ) (t gx gz : ℕ) : Bool :=
  let b := t * 9
  let x0 := vAt verts b
  let x1 := vAt verts (b + 3)
  let x2 := vAt verts (b + 6)
  let z0 := vAt verts (b + 2)
  let z1 := vAt verts (b + 5)
  let z2 := vAt verts (b + 8)
  let xMin := min x0 (min x1 x2)
  let xMax := max x0 (max x1 x2)
  let zMin := min z0 (min z1 z2)
  let zMax := max z0 (max z1 z2)
  let gxLo := max 0 ⌊(xMin + WORLD_RANGE) / CELL_SIZE⌋
  let gxHi := min ((N : ℤ) - 1) ⌈(xMax + WORLD_RANGE) / CELL_SIZE⌉
  let gzLo := max 0 ⌊(zMin + WORLD_RANGE) / CELL_SIZE⌋
  let gzHi := min ((N : ℤ) - 1) ⌈(zMax + WORLD_RANGE) / CELL_SIZE⌉
  decide (gxLo ≤ (gx : ℤ) ∧ (gx : ℤ) ≤ gxHi ∧ gzLo ≤ (gz : ℤ) ∧ (gz : ℤ) ≤ gzHi)

/-- Sorted Y intersections of the vertical ray of column `(gx, gz)` with
the candidate triangles (ascending triangle order, then `sort((a,b) =>
a-b)`). -/
def columnHits (verts : List ℚ) (nTri gx gz : ℕ) : List ℚ :=
  let rx := ((gx : ℚ) - N / 2 + 0.5) * CELL_SIZE
  let rz := ((gz : ℚ) - N / 2 + 0.5) * CELL_SIZE
  let hits := ((List.range nTri).filter fun t => triInColumn verts t gx gz).filterMap
    fun t => triRayY rx rz verts (t * 9)
  hits.mergeSort fun a b => a ≤ b

/-- Successive crossing windows (1st–2nd, 3rd–4th, …) of the parity
fill. -/
def parityPairs : List ℚ → List (ℚ × ℚ)
  | yLo :: yHi :: rest => (yLo, yHi) :: parityPairs rest
  | _ => []

/-- `_columnScan()`: the resulting binary mask as a function of the flat
cell index — cell `(gx, gy, gz)` is 1 iff its column has at least two
hits and `gy` lies inside one of the parity windows
(`gyLo = max(0, ⌈yLo/CELL + N/2 − 0.5⌉)`,
`gyHi = min(N−1, ⌊yHi/CELL + N/2 − 0.5⌋)`). -/
def columnScanMask (verts : List ℚ) (nTri : ℕ) : ℕ → ℚ := fun i =>
  let c := coords i
  let gx := c.1
  let gy := c.2.1
  let gz := c.2.2
  let hits := columnHits verts nTri gx gz
  if 2 ≤ hits.length ∧ (parityPairs hits).any (fun p =>
      let gyLo := max 0 ⌈p.1 / CELL_SIZE + ((N : ℚ) / 2 - 0.5)⌉
      let gyHi := min ((N : ℤ) - 1) ⌊p.2 / CELL_SIZE + ((N : ℚ) / 2 - 0.5)⌋
      decide (gyLo ≤ (gy : ℤ) ∧ (gy : ℤ) ≤ gyHi)) then 1 else 0

/-- Clamp a coordinate to `[0, N-1]` (clamp-to-edge blur boundary). -/
def clampIdx (c : ℤ) : ℕ := (max 0 (min ((N : ℤ) - 1) c)).toNat

/-- One radius-1 box-blur pass along the X axis: each cell becomes the
mean of its clamped 3-cell window (the source's sliding-window loop
computes exactly this value at every cell). -/
def blurX (src : ℕ → ℚ) : ℕ → ℚ := fun i =>
  let c := coords i
  (src (clampIdx ((c.1 : ℤ) - 1) + c.2.1 * N + c.2.2 * N2)
    + src (c.1 + c.2.1 * N + c.2.2 * N2)
    + src (clampIdx ((c.1 : ℤ) + 1) + c.2.1 * N + c.2.2 * N2)) / 3

/-- Radius-1 box-blur pass along the Y axis. -/
def blurY (src : ℕ → ℚ) : ℕ → ℚ := fun i =>
  let c := coords i
  (src (c.1 + clampIdx ((c.2.1 : ℤ) - 1) * N + c.2.2 * N2)
    + src (c.1 + c.2.1 * N + c.2.2 * N2)
    + src (c.1 + clampIdx ((c.2.1 : ℤ) + 1) * N + c.2.2 * N2)) / 3

/-- Radius-1 box-blur pass along the Z axis. -/
def blurZ (src : ℕ → ℚ) : ℕ → ℚ := fun i =>
  let c := coords i
  (src (c.1 + c.2.1 * N + clampIdx ((c.2.2 : ℤ) - 1) * N2)
    + src (c.1 + c.2.1 * N + c.2.2 * N2)
    + src (c.1 + c.2.1 * N + clampIdx ((c.2.2 : ℤ) + 1) * N2)) / 3

/-- The blur rounds of `_blurBinary` (one X + one Y + one Z pass each). -/
def blurRounds : (ℕ → ℚ) → ℕ → ℕ → ℚ
  | m, 0 => m
  | m, p + 1 => blurRounds (blurZ (blurY (blurX m))) p

/-- `_blurBinary()`: `numPasses = max(0, round(fuzziness / CELL_SIZE))`
rounds applied to the cached binary mask (never to the blurred result). -/
def blurBinary (binMask : ℕ → ℚ) (fuzziness : ℚ) : ℕ → ℚ :=
  let numPasses := (max 0 (round (fuzziness / CELL_SIZE))).toNat
  blurRounds binMask numPasses

/-- State of a `ShapeConstraint` instance. -/
@[ext]
structure ShapeState where
  enabled : Bool
  fuzziness : ℚ
  scale : ℚ
  fuzzMask : ℕ → ℚ
  rawVerts : Option (List ℚ)
  rawCenter : Option Center
  rawAutoS : ℚ
  worldVerts : List ℚ
  triCount : ℕ
  binMask : ℕ → ℚ

/-- `_applyTransform()` on the state (uses the stored raw center and
auto-scale; only reachable with `rawVerts`/`rawCenter` set). -/
def applyTransformS (s : ShapeState) : ShapeState :=
  let raw := s.rawVerts.getD []
  let c := s.rawCenter.getD ⟨0, 0, 0, 0⟩
  { s with worldVerts := applyVerts raw c (s.rawAutoS * s.scale) }

/-- `_rebuildFull()`: column scan into the binary mask, then blur into the
published mask (the renderer callback is out of scope). -/
def rebuildFull (s : ShapeState) : ShapeState :=
  let bin := columnScanMask s.worldVerts s.triCount
  { s with binMask := bin, fuzzMask := blurBinary bin s.fuzziness }

/-- `loadSTL(arrayBuffer)`: on parse failure the error is reported (the
source logs it via `console.error`, modeled as the returned message) and
the state — in particular `fuzzMask` and the cached binary mask — is left
untouched; on success store the raw geometry, auto-fit, rebuild the
masks, and enable the constraint. -/
def loadSTL (s : ShapeState) (buf : Buf) : ShapeState × Option String :=
  match parseSTL buf with
  | .error e => (s, some e)
  | .ok p =>
      let center := bboxCenter p.1
      let s1 := { s with
        triCount := p.2
        rawVerts := some p.1
        rawCenter := some center
        rawAutoS := autoScaleFactor center }
      let s2 := applyTransformS s1
      let s3 := rebuildFull s2
      ({ s3 with enabled := true }, none)

/-- `setScale(v)`: rescale and rebuild (no-op without loaded geometry). -/
def setScale (s : ShapeState) (v : ℚ) : ShapeState :=
  let s1 := { s with scale := v }
  match s1.rawVerts with
  | none => s1
  | some _ => rebuildFull (applyTransformS s1)

/-- `setFuzziness(v)`: fast path — re-blur the cached binary mask only. -/
def setFuzziness (s : ShapeState) (v : ℚ) : ShapeState :=
  let s1 := { s with fuzziness := v }
  match s1.rawVerts with
  | none => s1
  | some _ => { s1 with fuzzMask := blurBinary s1.binMask v }

/-- The per-cell clamped coherence value as stated by the specification
(claim C6): previous coherence plus
`orchGrowthRate·dt·(0.6·electronActivity + 0.4·photonActivity −
0.5·|higgs−VEV|)` with `electronActivity = electron² + electronVel²`
(similarly for the photon), clamped to [0, 1]. -/
def orchClamped (s : FieldState) (rate dt : ℚ) (i : ℕ) : ℚ :=
  max 0 (min 1 (s.orchCoherence i + rate * dt *
    (0.6 * (s.electron i * s.electron i + s.electronVel i * s.electronVel i)
      + 0.4 * (s.photon i * s.photon i + s.photonVel i * s.photonVel i)
      - 0.5 * |s.higgs i - VEV|)))

/-! ### Concrete states used by witnesses and counterexamples -/

/-- A quiescent field (all channels zero) with no heart influence. -/
def zeroField : FieldState :=
  { higgs := fun _ => 0, electron := fun _ => 0, photon := fun _ => 0
    higgsVel := fun _ => 0, electronVel := fun _ => 0, photonVel := fun _ => 0
    phi := fun _ => 0, orchCoherence := fun _ => 0, orchFlash := fun _ => 0
    heartSurface := fun _ => 0, heartInterior := fun _ => 0
    heartStrength := 0, heartSurfaceCells := [], heartInteriorCells := [] }

/-- All-zero heart-attractor draws. -/
def zeroHeartRand : HeartRand := ⟨fun _ => 0, fun _ => 0, fun _ => 0, fun _ => 0⟩

/-- All-zero spawn draws. -/
def zeroSpawnRand : SpawnRand := ⟨fun _ => (0, 0, 0), 0, 0, 0, 0, fun _ => 0⟩

/-- All-zero photon draws. -/
def zeroPhotonRand : PhotonRand := ⟨0, 0, 0, 0⟩

/-- All-zero update draws. -/
def zeroUpdateRand : UpdateRand := ⟨fun _ => 0, fun _ => zeroSpawnRand, fun _ => zeroPhotonRand⟩

/-- A freshly constructed `ParticleSystem` (all slots free, in allocation
order 0,1,…,299 from the stack top). -/
def basePool : PoolState :=
  { px := fun _ => 0, py := fun _ => 0, pz := fun _ => 0
    vx := fun _ => 0, vy := fun _ => 0, vz := fun _ => 0
    colorR := fun _ => 0, colorG := fun _ => 0, colorB := fun _ => 0
    size := fun _ => 0, alpha := fun _ => 0
    type := fun _ => 0, age := fun _ => 0, lifetime := fun _ => 0
    entangledWith := fun _ => -1, pairWith := fun _ => -1
    freeList := List.range MAX, active := []
    flashes := fun _ => ⟨0, 0, 0, 999, 0⟩, flashHead := 0
    spawnAccum := 0, injectionRate := 4 }

/-- A pool holding one spawned pair in slots 0 and 1, slot 0 about to die
of old age (age 5 ≥ lifetime 1) with the partner young (lifetime 100) and
far away (distance 10 world units), injection disabled. -/
def cPool1 : PoolState :=
  { basePool with
    px := fun i => if i = 1 then 10 else 0
    age := fun i => if i = 0 then 5 else 0
    lifetime := fun i => if i = 0 then 1 else 100
    type := fun i => if i = 0 then TYPE_ELECTRON else if i = 1 then TYPE_POSITRON else 0
    alpha := fun i => if i = 0 ∨ i = 1 then 1 else 0
    pairWith := fun i => if i = 0 then 1 else if i = 1 then 0 else -1
    entangledWith := fun i => if i = 0 then 1 else if i = 1 then 0 else -1
    freeList := (List.range MAX).drop 2
    active := [0, 1]
    injectionRate := 0 }

/-- A pool holding one spawned pair in slots 0 and 1 at rest at distance
1 (inside the annihilation radius 1.5), both young, injection disabled. -/
def cPool8 : PoolState :=
  { basePool with
    px := fun i => if i = 1 then 1 else 0
    lifetime := fun i => if i = 0 ∨ i = 1 then 100 else 0
    type := fun i => if i = 0 then TYPE_ELECTRON else if i = 1 then TYPE_POSITRON else 0
    alpha := fun i => if i = 0 ∨ i = 1 then 1 else 0
    pairWith := fun i => if i = 0 then 1 else if i = 1 then 0 else -1
    entangledWith := fun i => if i = 0 then 1 else if i = 1 then 0 else -1
    freeList := (List.range MAX).drop 2
    active := [0, 1]
    injectionRate := 0 }

/-- A pool with a single free slot (slot 7) left. -/
def cPool9 : PoolState := { basePool with freeList := [7] }

/-- A freshly constructed `ShapeConstraint`: default all-pass mask, no
geometry loaded. -/
def shape0 : ShapeState :=
  { enabled := false, fuzziness := 1.0, scale := 1.0
    fuzzMask := fun _ => 1.0
    rawVerts := none, rawCenter := none, rawAutoS := 1.0
    worldVerts := [], triCount := 0
    binMask := fun _ => 0 }

/-- A truncated binary STL buffer: plausible header claiming 1 triangle
(which would need 134 bytes) but only 90 bytes long. -/
def truncBuf : Buf := List.replicate 80 0 ++ [1, 0, 0, 0] ++ List.replicate 6 0

/-! ### Theorems -/

/-- Leftover/step-count bookkeeping of the sub-step loop: the leftover
accumulator is the input minus the consumed steps, and at most `fuel`
steps are consumed. -/
theorem simLoop_spec (fuel : ℕ) :
    ∀ acc : ℚ, (simLoop acc fuel).1 = acc - (simLoop acc fuel).2 * simDT ∧
      (simLoop acc fuel).2 ≤ fuel := by
  induction fuel with
  | zero => intro acc; simp [simLoop]
  | succ n ih =>
      intro acc
      by_cases h : simDT ≤ acc
      · have := ih (acc - simDT)
        simp only [simLoop, h, if_true]
        refine ⟨?_, by omega⟩
        push_cast
        rw [this.1]
        ring
      · simp [simLoop, h]

/-- C2, counterexample: starting from an empty accumulator, a single
frame whose elapsed wall time is 50 ms already leaves a carried remainder
(0.034 s) exceeding one full backlog of capped steps
(`MAX_STEPS·SIM_DT = 0.016 s`), and a second such frame strictly
increases the carried remainder — pending work grows from frame to
frame instead of being discarded. -/
theorem c2_cex :
    (maxSteps : ℚ) * simDT < (frameAdvance 0 50).1 ∧
    (frameAdvance 0 50).1 < (frameAdvance ((frameAdvance 0 50).1) 50).1 := by
  norm_num [frameAdvance, simLoop, simDT, maxWallDT, maxSteps]

/-- C2, amended: each frame caps its wall-clock intake at
`MAX_WALL_DT = 0.05 s` and its work at `MAX_STEPS = 4` sub-steps, but the
excess accumulated time is carried over (queued), not discarded: the
leftover accumulator equals the accumulated input minus the consumed
steps, and whenever the capped intake exceeds the largest consumable
amount `MAX_STEPS·SIM_DT` the accumulator strictly grows across the
frame. -/
theorem c2_thm (accum ms : ℚ) :
    (frameAdvance accum ms).2 ≤ maxSteps ∧
    (frameAdvance accum ms).1
      = accum + min (ms * 0.001) maxWallDT - (frameAdvance accum ms).2 * simDT ∧
    ((maxSteps : ℚ) * simDT < min (ms * 0.001) maxWallDT →
      accum < (frameAdvance accum ms).1) := by
  obtain ⟨h1, h2⟩ := simLoop_spec maxSteps (accum + min (ms * 0.001) maxWallDT)
  refine ⟨h2, ?_, ?_⟩
  · rw [show frameAdvance accum ms
      = simLoop (accum + min (ms * 0.001) maxWallDT) maxSteps from rfl]
    rw [h1]
  · intro hgt
    rw [show frameAdvance accum ms
      = simLoop (accum + min (ms * 0.001) maxWallDT) maxSteps from rfl, h1]
    have hc : ((simLoop (accum + min (ms * 0.001) maxWallDT) maxSteps).2 : ℚ)
        ≤ (maxSteps : ℚ) := by exact_mod_cast h2
    have hpos : (0 : ℚ) < simDT := by norm_num [simDT]
    nlinarith [hc, hgt, hpos]

/-- C2, witness for the amended theorem: a 50 ms frame from an empty
accumulator leaves a strictly positive leftover. -/
theorem c2_witness : (0 : ℚ) < (frameAdvance 0 50).1 :=
  (c2_thm 0 50).2.2 (by norm_num [maxSteps, simDT, maxWallDT])

/-- C3: after every `QuantumField.update(dt)` call — whatever the input
state, timestep and random draws — every cell of each of the three
amplitude channels lies within [-5, 5], because the hard clamp is the
last action of the step. -/
theorem c3_thm (s : FieldState) (dt : ℚ) (r : HeartRand) (i : ℕ) (hi : i < N3) :
    (-5 ≤ (fieldUpdate s dt r).higgs i ∧ (fieldUpdate s dt r).higgs i ≤ 5) ∧
    (-5 ≤ (fieldUpdate s dt r).electron i ∧ (fieldUpdate s dt r).electron i ≤ 5) ∧
    (-5 ≤ (fieldUpdate s dt r).photon i ∧ (fieldUpdate s dt r).photon i ≤ 5) := by
  have h5 : (-5 : ℚ) ≤ 5 := by norm_num
  simp only [fieldUpdate, clampStage, hi, if_true]
  exact ⟨⟨le_max_left _ _, max_le h5 (min_le_left _ _)⟩,
    ⟨le_max_left _ _, max_le h5 (min_le_left _ _)⟩,
    ⟨le_max_left _ _, max_le h5 (min_le_left _ _)⟩⟩

/-- C3, witness at the zero field, `dt = 1`, cell 0. -/
theorem c3_witness :
    (-5 ≤ (fieldUpdate zeroField 1 zeroHeartRand).higgs 0 ∧
      (fieldUpdate zeroField 1 zeroHeartRand).higgs 0 ≤ 5) ∧
    (-5 ≤ (fieldUpdate zeroField 1 zeroHeartRand).electron 0 ∧
      (fieldUpdate zeroField 1 zeroHeartRand).electron 0 ≤ 5) ∧
    (-5 ≤ (fieldUpdate zeroField 1 zeroHeartRand).photon 0 ∧
      (fieldUpdate zeroField 1 zeroHeartRand).photon 0 ≤ 5) :=
  c3_thm zeroField 1 zeroHeartRand 0 (by decide)

/-- C6: one `updateOrchOR(dt)` call clears every flash, grows and clamps
every cell's coherence by the stated formula, and fires exactly the cells
whose clamped coherence reaches the threshold, resetting their coherence
to 0 in the same pass — so after any call a cell's flash is 1 iff it
crossed the threshold in this very call (flashes never carry over), and a
firing cell's coherence is 0. -/
theorem c6_thm (s : FieldState) (threshold rate dt : ℚ) (i : ℕ) (hi : i < N3) :
    ((orchUpdate s threshold rate dt).orchFlash i
      = if threshold ≤ orchClamped s rate dt i then 1 else 0) ∧
    ((orchUpdate s threshold rate dt).orchCoherence i
      = if threshold ≤ orchClamped s rate dt i then 0 else orchClamped s rate dt i) ∧
    ((orchUpdate s threshold rate dt).orchFlash i = 1 →
      (orchUpdate s threshold rate dt).orchCoherence i = 0) := by
  have key : max 0 (min 1 (s.orchCoherence i
      + (((s.electron i * s.electron i + s.electronVel i * s.electronVel i) * 0.6
        + (s.photon i * s.photon i + s.photonVel i * s.photonVel i) * 0.4
        - |s.higgs i - VEV| * 0.5) * (rate * dt))))
      = orchClamped s rate dt i := by
    unfold orchClamped
    ring_nf
  simp only [orchUpdate, hi, if_true, key]
  refine ⟨trivial, trivial, ?_⟩
  by_cases hc : threshold ≤ orchClamped s rate dt i
  · simp [hc]
  · simp [hc]

/-- C6, witness at the zero field. -/
theorem c6_witness :
    ((orchUpdate zeroField (1/2) (4/5) (1/250)).orchFlash 0
      = if (1/2 : ℚ) ≤ orchClamped zeroField (4/5) (1/250) 0 then 1 else 0) ∧
    ((orchUpdate zeroField (1/2) (4/5) (1/250)).orchCoherence 0
      = if (1/2 : ℚ) ≤ orchClamped zeroField (4/5) (1/250) 0 then 0
        else orchClamped zeroField (4/5) (1/250) 0) ∧
    ((orchUpdate zeroField (1/2) (4/5) (1/250)).orchFlash 0 = 1 →
      (orchUpdate zeroField (1/2) (4/5) (1/250)).orchCoherence 0 = 0) :=
  c6_thm zeroField (1/2) (4/5) (1/250) 0 (by decide)

/-- C5: the coherence channel stays in [0, 1] under both of its writers —
`updateOrchOR` clamps to [0, 1] and resets crossers to 0 (never leaving a
negative value, for any input state), and the pool's additive
annihilation boost `min(1, c + 0.4)` is bounded by 1 (and stays
nonnegative from a nonnegative input). -/
theorem c5_thm :
    (∀ (s : FieldState) (threshold rate dt : ℚ) (i : ℕ), i < N3 →
      0 ≤ (orchUpdate s threshold rate dt).orchCoherence i ∧
        (orchUpdate s threshold rate dt).orchCoherence i ≤ 1) ∧
    (∀ c : ℚ, boostCoherence c ≤ 1 ∧ (0 ≤ c → 0 ≤ boostCoherence c)) := by
  constructor
  · intro s threshold rate dt i hi
    simp only [orchUpdate, hi, if_true]
    by_cases hc : threshold ≤ max 0 (min 1 (s.orchCoherence i
        + ((s.electron i * s.electron i + s.electronVel i * s.electronVel i) * 0.6
          + (s.photon i * s.photon i + s.photonVel i * s.photonVel i) * 0.4
          - |s.higgs i - VEV| * 0.5) * (rate * dt)))
    · simp [hc]
    · simp only [hc, if_false]
      exact ⟨le_max_left _ _, max_le zero_le_one (min_le_left _ _)⟩
  · intro c
    unfold boostCoherence
    refine ⟨min_le_left _ _, fun hc => le_min (by norm_num) (by linarith)⟩

/-- C5, witness: the zero field, cell 0, and a zero coherence input for
the boost. -/
theorem c5_witness :
    (0 ≤ (orchUpdate zeroField (19/20) (4/5) (1/250)).orchCoherence 0 ∧
      (orchUpdate zeroField (19/20) (4/5) (1/250)).orchCoherence 0 ≤ 1) ∧
    (boostCoherence 0 ≤ 1 ∧ 0 ≤ boostCoherence 0) :=
  ⟨c5_thm.1 zeroField (19/20) (4/5) (1/250) 0 (by decide),
    (c5_thm.2 0).1, (c5_thm.2 0).2 le_rfl⟩

/-- For meaningful flat indices, `idx` inverts `coords`. -/
theorem idx_coords (i : ℕ) (hi : i < N3) :
    idx ((coords i).1 : ℤ) ((coords i).2.1 : ℤ) ((coords i).2.2 : ℤ) = i := by
  unfold idx coords N3 N2 N at *
  simp only []
  omega

/-- The higgs acceleration buffer value equals the spec-side higgs law. -/
theorem accH_spec (s : FieldState) (i : ℕ) (hi : i < N3) :
    accAt s 0 i = specAccelHiggs s i := by
  unfold accAt accHAt specAccelHiggs laplacianAt specLaplacian
  simp only []
  rw [idx_coords i hi]
  ring

/-- The electron acceleration buffer value equals the spec-side law. -/
theorem accE_spec (s : FieldState) (i : ℕ) (hi : i < N3) :
    accAt s 1 i = specAccelElectron s i := by
  unfold accAt accEAt specAccelElectron laplacianAt specLaplacian
  simp only []
  rw [idx_coords i hi]
  ring

/-- The photon acceleration buffer value equals the spec-side law. -/
theorem accP_spec (s : FieldState) (i : ℕ) (hi : i < N3) :
    accAt s 2 i = specAccelPhoton s i := by
  unfold accAt accPAt specAccelPhoton laplacianAt specLaplacian
  simp only []
  rw [idx_coords i hi]
  ring

/-- The source's position stage equals the spec-side position update. -/
theorem posStage_eq (s : FieldState) (dt : ℚ) :
    verletPosStage s dt = specPosition s dt := by
  unfold verletPosStage specPosition
  refine FieldState.ext ?_ ?_ ?_ rfl rfl rfl rfl rfl rfl rfl rfl rfl rfl rfl
  · funext i
    by_cases hi : i < N3
    · simp only [hi, if_true, accH_spec s i hi]; ring
    · simp [hi]
  · funext i
    by_cases hi : i < N3
    · simp only [hi, if_true, accE_spec s i hi]; ring
    · simp [hi]
  · funext i
    by_cases hi : i < N3
    · simp only [hi, if_true, accP_spec s i hi]; ring
    · simp [hi]

/-- With no heart influence the heart stage is the identity. -/
theorem heart_skip (s : FieldState) (dt : ℚ) (r : HeartRand)
    (h : s.heartStrength = 0) : heartStage s dt r = s := by
  unfold heartStage
  rw [h]
  simp

/-- `specPosition` leaves the velocity channels untouched. -/
theorem specPosition_vel (s : FieldState) (dt : ℚ) :
    (specPosition s dt).higgsVel = s.higgsVel ∧
    (specPosition s dt).electronVel = s.electronVel ∧
    (specPosition s dt).photonVel = s.photonVel :=
  ⟨rfl, rfl, rfl⟩

/-- C4: with the heart attractor disabled (its default), a
`QuantumField.update(dt)` call is exactly the spec's velocity-Verlet
step: accelerations from the current state by the three stated laws,
positions advanced by `x += v·dt + ½a·dt²`, accelerations recomputed at
the new state, velocities advanced by `v += ½(a_old+a_new)·dt` — not a
naive Euler update. -/
theorem c4_thm (s : FieldState) (dt : ℚ) (r : HeartRand)
    (h0 : s.heartStrength = 0) :
    fieldUpdate s dt r = specVerletStep s dt := by
  unfold fieldUpdate
  show clampStage (heartStage (verletVelStage s (verletPosStage s dt) dt) dt r)
    = specVerletStep s dt
  rw [heart_skip _ _ _ (by exact h0), posStage_eq s dt]
  unfold specVerletStep clampStage verletVelStage
  refine FieldState.ext rfl rfl rfl ?_ ?_ ?_ rfl rfl rfl rfl rfl rfl rfl rfl
  · funext i
    by_cases hi : i < N3
    · simp only [hi, if_true, accH_spec s i hi, accH_spec (specPosition s dt) i hi,
        (specPosition_vel s dt).1]
      ring
    · simp [hi, (specPosition_vel s dt).1]
  · funext i
    by_cases hi : i < N3
    · simp only [hi, if_true, accE_spec s i hi, accE_spec (specPosition s dt) i hi,
        (specPosition_vel s dt).2.1]
      ring
    · simp [hi, (specPosition_vel s dt).2.1]
  · funext i
    by_cases hi : i < N3
    · simp only [hi, if_true, accP_spec s i hi, accP_spec (specPosition s dt) i hi,
        (specPosition_vel s dt).2.2]
      ring
    · simp [hi, (specPosition_vel s dt).2.2]

/-- C4, witness at the zero field (heart strength 0 by construction). -/
theorem c4_witness :
    fieldUpdate zeroField (1/250) zeroHeartRand = specVerletStep zeroField (1/250) :=
  c4_thm zeroField (1/250) zeroHeartRand rfl

/-- C10: on any parse failure, `loadSTL` reports the parse error (the
source logs it, modeled as the returned message) and mutates nothing: the
published `fuzzMask`, the cached binary mask — indeed the whole state —
are exactly what they were before the call. -/
theorem c10_thm (s : ShapeState) (buf : Buf) (e : String)
    (h : parseSTL buf = .error e) :
    (loadSTL s buf).1.fuzzMask = s.fuzzMask ∧
    (loadSTL s buf).1.binMask = s.binMask ∧
    (loadSTL s buf).1 = s ∧ (loadSTL s buf).2 = some e := by
  simp [loadSTL, h]

/-- C10, witness: a truncated binary STL (header claims one triangle, 90
of the required 134 bytes present) fails to parse — the size check
rejects the binary path and the garbage bytes contain no `vertex` record
— and the default-constructed state is untouched. -/
theorem c10_witness :
    (loadSTL shape0 truncBuf).1.fuzzMask = shape0.fuzzMask ∧
    (loadSTL shape0 truncBuf).1.binMask = shape0.binMask ∧
    (loadSTL shape0 truncBuf).1 = shape0 ∧
    (loadSTL shape0 truncBuf).2 = some "No vertices in ASCII STL" :=
  c10_thm shape0 truncBuf _ (by rfl)

/-- Appending a fresh element and erasing it restores the list. -/
theorem listAdd_erase (l : List ℕ) (x : ℕ) (h : x ∉ l) :
    (listAdd l x).erase x = l := by
  unfold listAdd
  rw [if_neg h, List.erase_append_right _ h]
  simp

/-- C9: `spawnPair` fails closed when the pool cannot hold a full pair —
with fewer than two free slots (in particular with all 300 slots active,
when the free list is empty) the call leaves the entire pool state
unchanged; a partially allocated first slot is rolled back by the
`_free` call, which restores exactly the previous state because free
slots carry inactive type, zero alpha and cleared relation fields. -/
theorem c9_thm (s : PoolState) (f : FieldState) (sr : SpawnRand) (tA tB : ℕ)
    (hlen : s.freeList.length < 2)
    (hfree : ∀ i ∈ s.freeList, i ∉ s.active ∧ s.type i = TYPE_INACTIVE ∧
      s.alpha i = 0 ∧ s.pairWith i = -1 ∧ s.entangledWith i = -1) :
    spawnPair s f sr tA tB = s := by
  cases hl : s.freeList with
  | nil =>
      simp [spawnPair, allocP, hl]
  | cons h t =>
      cases ht : t with
      | cons h2 t2 =>
          rw [hl, ht] at hlen
          simp at hlen
          omega
      | nil =>
          rw [ht] at hl
          obtain ⟨hmem, htype, halpha, hpair, hent⟩ := hfree h (hl ▸ List.mem_singleton_self h)
          have e1 : spawnPair s f sr tA tB
              = freeP { s with freeList := [], active := listAdd s.active h } h := by
            simp [spawnPair, allocP, hl]
          rw [e1]
          unfold freeP
          refine PoolState.ext rfl rfl rfl rfl rfl rfl rfl rfl rfl rfl ?_ ?_ rfl rfl
            ?_ ?_ ?_ ?_ rfl rfl rfl rfl
          · show Function.update s.alpha h 0 = s.alpha
            rw [← halpha]
            exact Function.update_eq_self h s.alpha
          · show Function.update s.type h TYPE_INACTIVE = s.type
            rw [show TYPE_INACTIVE = s.type h from htype.symm]
            exact Function.update_eq_self h s.type
          · show Function.update s.entangledWith h (-1) = s.entangledWith
            rw [← hent]
            exact Function.update_eq_self h s.entangledWith
          · show Function.update s.pairWith h (-1) = s.pairWith
            rw [← hpair]
            exact Function.update_eq_self h s.pairWith
          · show h :: [] = s.freeList
            rw [hl]
          · show (listAdd s.active h).erase h = s.active
            exact listAdd_erase s.active h hmem

/-- C9, witness: a pool with exactly one free slot (all conditions
checked concretely); the spawn call is the identity. -/
theorem c9_witness : spawnPair cPool9 zeroField zeroSpawnRand TYPE_ELECTRON TYPE_POSITRON = cPool9 :=
  c9_thm cPool9 zeroField zeroSpawnRand TYPE_ELECTRON TYPE_POSITRON
    (by decide) (by decide)

/-- Membership gives a `Set.has` hit. -/
theorem hasZ_of_mem {l : List ℕ} {j : ℕ} (h : j ∈ l) : hasZ l (j : ℤ) = true := by
  unfold hasZ
  rw [List.any_eq_true]
  exact ⟨j, h, by simp⟩

/-- `Set.has` hits are memberships of nonnegative indices. -/
theorem hasZ_iff {l : List ℕ} {z : ℤ} : hasZ l z = true ↔ ∃ j ∈ l, (j : ℤ) = z := by
  unfold hasZ
  rw [List.any_eq_true]
  constructor
  · rintro ⟨j, hj, he⟩
    exact ⟨j, hj, by simpa using he⟩
  · rintro ⟨j, hj, he⟩
    exact ⟨j, hj, by simpa using he⟩

/-- The physics step touches only positions, velocities, age and alpha. -/
theorem integratePhys_proj (f : FieldState) (dt : ℚ) (s : PoolState) (i : ℕ) :
    (integratePhys f dt s i).active = s.active ∧
    (integratePhys f dt s i).freeList = s.freeList ∧
    (integratePhys f dt s i).type = s.type ∧
    (integratePhys f dt s i).pairWith = s.pairWith ∧
    (integratePhys f dt s i).entangledWith = s.entangledWith ∧
    (integratePhys f dt s i).lifetime = s.lifetime ∧
    (integratePhys f dt s i).age = Function.update s.age i (s.age i + dt) ∧
    (integratePhys f dt s i).spawnAccum = s.spawnAccum ∧
    (integratePhys f dt s i).injectionRate = s.injectionRate ∧
    (integratePhys f dt s i).flashes = s.flashes ∧
    (integratePhys f dt s i).flashHead = s.flashHead :=
  ⟨rfl, rfl, rfl, rfl, rfl, rfl, rfl, rfl, rfl, rfl, rfl⟩

/-- The per-particle loop body never changes the bookkeeping fields. -/
theorem integrateOne_proj (f : FieldState) (dt : ℚ) (s : PoolState) (i : ℕ) :
    (integrateOne f dt s i).1.active = s.active ∧
    (integrateOne f dt s i).1.freeList = s.freeList ∧
    (integrateOne f dt s i).1.type = s.type ∧
    (integrateOne f dt s i).1.pairWith = s.pairWith ∧
    (integrateOne f dt s i).1.entangledWith = s.entangledWith ∧
    (integrateOne f dt s i).1.lifetime = s.lifetime := by
  unfold integrateOne
  split
  · exact ⟨rfl, rfl, rfl, rfl, rfl, rfl⟩
  · exact ⟨rfl, rfl, rfl, rfl, rfl, rfl⟩

/-- The whole classification pass never changes the bookkeeping fields. -/
theorem classify_proj (f : FieldState) (dt : ℚ) :
    ∀ (l : List ℕ) (s : PoolState),
    (classify f dt s l).1.active = s.active ∧
    (classify f dt s l).1.freeList = s.freeList ∧
    (classify f dt s l).1.type = s.type ∧
    (classify f dt s l).1.pairWith = s.pairWith ∧
    (classify f dt s l).1.entangledWith = s.entangledWith ∧
    (classify f dt s l).1.lifetime = s.lifetime := by
  intro l
  induction l with
  | nil => intro s; exact ⟨rfl, rfl, rfl, rfl, rfl, rfl⟩
  | cons i rest ih =>
      intro s
      obtain ⟨h1, h2, h3, h4, h5, h6⟩ := ih (integrateOne f dt s i).1
      obtain ⟨g1, g2, g3, g4, g5, g6⟩ := integrateOne_proj f dt s i
      simp only [classify]
      exact ⟨h1.trans g1, h2.trans g2, h3.trans g3, h4.trans g4, h5.trans g5, h6.trans g6⟩

/-- Helper for C1: when the pool holds exactly one pair `[a, b]` (with
`a < b`, both live), injection is due no spawn this call, and slot `a`'s
age reaches its lifetime, the whole active set is emptied by the update:
the still-live partner `b` is freed together with `a` (and, since no
flash record is pushed for natural deaths, no decay photon is spawned).
-/
theorem naturalDeath_frees_pair (s : PoolState) (f : FieldState) (dt : ℚ)
    (R : UpdateRand) (a b : ℕ)
    (hact : s.active = [a, b])
    (hab : a < b)
    (hpb : s.pairWith b = (a : ℤ))
    (hea : s.entangledWith a = (b : ℤ))
    (heb : s.entangledWith b = (a : ℤ))
    (hta : s.type a ≠ TYPE_INACTIVE)
    (htb : s.type b ≠ TYPE_INACTIVE)
    (hdie : s.lifetime a ≤ s.age a + dt)
    (hacc0 : 0 ≤ s.spawnAccum + s.injectionRate * dt)
    (hacc1 : s.spawnAccum + s.injectionRate * dt < 1) :
    (psUpdate s f dt R).1.active = [] := by
  have hk : (⌊s.spawnAccum + s.injectionRate * dt⌋).toNat = 0 := by
    have h0 : ⌊s.spawnAccum + s.injectionRate * dt⌋ = 0 :=
      Int.floor_eq_zero_iff.mpr (Set.mem_Ico.mpr ⟨hacc0, hacc1⟩)
    rw [h0]
    rfl
  have hba : b ≠ a := hab.ne'
  have hbm1 : ¬((b : ℤ) = -1) := by omega
  have ham1 : ¬((a : ℤ) = -1) := by omega
  have hnlt : ¬((b : ℤ) < (a : ℤ)) := by exact_mod_cast not_lt.mpr hab.le
  have hz_ab_b : hasZ [a, b] (b : ℤ) = true := hasZ_of_mem (by simp)
  have hz_ab_a : hasZ [a, b] (a : ℤ) = true := hasZ_of_mem (by simp)
  have hz_b_b : hasZ [b] (b : ℤ) = true := hasZ_of_mem (by simp)
  by_cases hdb : s.lifetime b ≤ s.age b + dt
  · simp only [psUpdate, hk, Nat.cast_zero, sub_zero, spawnLoop, classify,
      integrateOne, integrateEntry, hact, hta, htb, hdie, hdb, hea, heb, hpb,
      Function.update_noteq hba, Function.update_same,
      integratePhys_proj, hz_ab_b, hz_ab_a, hbm1, ham1, hnlt,
      ite_true, ite_false, if_true, if_false, not_false_iff, ne_eq,
      processAll, processOne, flashAging, freeP, Int.toNat_natCast,
      List.erase_cons_head, hz_b_b]
    simp [integratePhys_proj, List.erase_cons_head, hba, hz_b_b, Int.toNat_natCast,
      processAll, processOne, flashAging, freeP, hbm1, ham1, heb, hz_ab_a,
      List.mem_cons, List.not_mem_nil, hnlt]
  · simp only [psUpdate, hk, Nat.cast_zero, sub_zero, spawnLoop, classify,
      integrateOne, integrateEntry, hact, hta, htb, hdie, hdb, hea, heb, hpb,
      Function.update_noteq hba, Function.update_same,
      integratePhys_proj, hz_ab_b, hz_ab_a, hbm1, ham1, hnlt,
      ite_true, ite_false, if_true, if_false, not_false_iff, ne_eq,
      processAll, processOne, flashAging, freeP, Int.toNat_natCast,
      List.erase_cons_head, hz_b_b]
    simp [integratePhys_proj, List.erase_cons_head, hba, hz_b_b, Int.toNat_natCast,
      processAll, processOne, flashAging, freeP, hbm1, ham1, heb, hz_ab_a,
      List.mem_cons, List.not_mem_nil, hnlt]

/-- C1, counterexample: in a pool holding one pair (slots 0 and 1),
slot 0 dies naturally (age 5 ≥ lifetime 1) while slot 1's own conditions
are not met — its age stays far below its lifetime and the pair is 10
world units apart, far outside the annihilation radius — yet after one
`update` call slot 1 has been removed from the active set: a natural
death does force the still-alive partner to die. -/
theorem c1_cex :
    cPool1.age 1 + 1/250 < cPool1.lifetime 1 ∧
    (cPool1.px 0 - cPool1.px 1) * (cPool1.px 0 - cPool1.px 1)
      + (cPool1.py 0 - cPool1.py 1) * (cPool1.py 0 - cPool1.py 1)
      + (cPool1.pz 0 - cPool1.pz 1) * (cPool1.pz 0 - cPool1.pz 1)
      > ANNIHILATION_RADIUS * ANNIHILATION_RADIUS ∧
    1 ∈ cPool1.active ∧
    1 ∉ (psUpdate cPool1 zeroField (1/250) zeroUpdateRand).1.active := by
  refine ⟨by norm_num [cPool1, basePool], ?_, by norm_num [cPool1, basePool], ?_⟩
  · norm_num [cPool1, basePool, ANNIHILATION_RADIUS]
  · have h := naturalDeath_frees_pair cPool1 zeroField (1/250) zeroUpdateRand 0 1
      rfl (by norm_num) rfl rfl rfl (by decide) (by decide)
      (by norm_num [cPool1, basePool]) (by norm_num [cPool1, basePool])
      (by norm_num [cPool1, basePool])
    rw [h]
    simp

/-- C1, amended: when a slot of a (sole) live pair dies naturally during
`ParticleSystem.update`, its still-alive partner is freed in the same
call as well — both sides leave the active set (with no flash record,
hence no decay photons for the natural death); the partner is not
independently checked. -/
theorem c1_thm (s : PoolState) (f : FieldState) (dt : ℚ) (R : UpdateRand)
    (a b : ℕ)
    (hact : s.active = [a, b])
    (hab : a < b)
    (hpb : s.pairWith b = (a : ℤ))
    (hea : s.entangledWith a = (b : ℤ))
    (heb : s.entangledWith b = (a : ℤ))
    (hta : s.type a ≠ TYPE_INACTIVE)
    (htb : s.type b ≠ TYPE_INACTIVE)
    (hdie : s.lifetime a ≤ s.age a + dt)
    (hacc0 : 0 ≤ s.spawnAccum + s.injectionRate * dt)
    (hacc1 : s.spawnAccum + s.injectionRate * dt < 1) :
    (psUpdate s f dt R).1.active = [] :=
  naturalDeath_frees_pair s f dt R a b hact hab hpb hea heb hta htb hdie hacc0 hacc1

/-- C1, witness for the amended theorem at the concrete pool. -/
theorem c1_witness : (psUpdate cPool1 zeroField (1/250) zeroUpdateRand).1.active = [] :=
  c1_thm cPool1 zeroField (1/250) zeroUpdateRand 0 1
    rfl (by norm_num) rfl rfl rfl (by decide) (by decide)
    (by norm_num [cPool1, basePool]) (by norm_num [cPool1, basePool])
    (by norm_num [cPool1, basePool])

/-- A spatially uniform higgs channel exerts no gradient force. -/
theorem higgsGrad_uniform (f : FieldState) (h : ∀ i j, f.higgs i = f.higgs j)
    (wx wy wz : ℚ) : higgsGrad f wx wy wz = (0, 0, 0) := by
  have h0 : ∀ A, f.higgs A = f.higgs 0 := fun A => h A 0
  simp [higgsGrad, h0]

/-- C8: two paired, active particles at rest within the annihilation
radius (in a uniform higgs field, with no injection due and at least
three free slots): within one `update` call both leave the active set,
exactly 3 new active decay-type (photon) slots are produced at their
midpoint, and the coherence of the lattice cell nearest the midpoint is
boosted by `min(1, c + 0.4)` — an increase of up to 0.4, bounded at 1. -/
theorem c8_thm (s : PoolState) (f : FieldState) (dt : ℚ) (R : UpdateRand)
    (a b f0 f1 f2 : ℕ) (rest : List ℕ)
    (hact : s.active = [a, b])
    (hab : a < b)
    (hpa : s.pairWith a = (b : ℤ))
    (hpb : s.pairWith b = (a : ℤ))
    (hta : s.type a ≠ TYPE_INACTIVE)
    (htb : s.type b ≠ TYPE_INACTIVE)
    (hlivea : ¬(s.lifetime a ≤ s.age a + dt))
    (hliveb : ¬(s.lifetime b ≤ s.age b + dt))
    (hva1 : s.vx a = 0) (hva2 : s.vy a = 0) (hva3 : s.vz a = 0)
    (hvb1 : s.vx b = 0) (hvb2 : s.vy b = 0) (hvb3 : s.vz b = 0)
    (huni : ∀ i j, f.higgs i = f.higgs j)
    (hra1 : ¬(WORLD_RANGE < s.px a)) (hra2 : ¬(s.px a < -WORLD_RANGE))
    (hra3 : ¬(WORLD_RANGE < s.py a)) (hra4 : ¬(s.py a < -WORLD_RANGE))
    (hra5 : ¬(WORLD_RANGE < s.pz a)) (hra6 : ¬(s.pz a < -WORLD_RANGE))
    (hrb1 : ¬(WORLD_RANGE < s.px b)) (hrb2 : ¬(s.px b < -WORLD_RANGE))
    (hrb3 : ¬(WORLD_RANGE < s.py b)) (hrb4 : ¬(s.py b < -WORLD_RANGE))
    (hrb5 : ¬(WORLD_RANGE < s.pz b)) (hrb6 : ¬(s.pz b < -WORLD_RANGE))
    (hdist : (s.px a - s.px b) * (s.px a - s.px b)
      + (s.py a - s.py b) * (s.py a - s.py b)
      + (s.pz a - s.pz b) * (s.pz a - s.pz b)
      < ANNIHILATION_RADIUS * ANNIHILATION_RADIUS)
    (hacc0 : 0 ≤ s.spawnAccum + s.injectionRate * dt)
    (hacc1 : s.spawnAccum + s.injectionRate * dt < 1)
    (hfl : s.freeList = f0 :: f1 :: f2 :: rest)
    (hf01 : f0 ≠ f1) (hf02 : f0 ≠ f2) (hf12 : f1 ≠ f2)
    (hf0a : f0 ≠ a) (hf0b : f0 ≠ b) (hf1a : f1 ≠ a) (hf1b : f1 ≠ b)
    (hf2a : f2 ≠ a) (hf2b : f2 ≠ b)
    (hcoh1 : f.orchCoherence (nearestCell ((s.px a + s.px b) * 0.5)
      ((s.py a + s.py b) * 0.5) ((s.pz a + s.pz b) * 0.5)) ≤ 1) :
    (psUpdate s f dt R).1.active = [f0, f1, f2] ∧
    ((psUpdate s f dt R).1.type f0 = TYPE_PHOTON ∧
      (psUpdate s f dt R).1.type f1 = TYPE_PHOTON ∧
      (psUpdate s f dt R).1.type f2 = TYPE_PHOTON) ∧
    ((psUpdate s f dt R).1.px f0 = (s.px a + s.px b) * 0.5 ∧
      (psUpdate s f dt R).1.py f0 = (s.py a + s.py b) * 0.5 ∧
      (psUpdate s f dt R).1.pz f0 = (s.pz a + s.pz b) * 0.5 ∧
      (psUpdate s f dt R).1.px f1 = (s.px a + s.px b) * 0.5 ∧
      (psUpdate s f dt R).1.py f1 = (s.py a + s.py b) * 0.5 ∧
      (psUpdate s f dt R).1.pz f1 = (s.pz a + s.pz b) * 0.5 ∧
      (psUpdate s f dt R).1.px f2 = (s.px a + s.px b) * 0.5 ∧
      (psUpdate s f dt R).1.py f2 = (s.py a + s.py b) * 0.5 ∧
      (psUpdate s f dt R).1.pz f2 = (s.pz a + s.pz b) * 0.5) ∧
    ((psUpdate s f dt R).2.orchCoherence (nearestCell ((s.px a + s.px b) * 0.5)
        ((s.py a + s.py b) * 0.5) ((s.pz a + s.pz b) * 0.5))
      = boostCoherence (f.orchCoherence (nearestCell ((s.px a + s.px b) * 0.5)
        ((s.py a + s.py b) * 0.5) ((s.pz a + s.pz b) * 0.5))) ∧
      f.orchCoherence (nearestCell ((s.px a + s.px b) * 0.5)
        ((s.py a + s.py b) * 0.5) ((s.pz a + s.pz b) * 0.5))
        ≤ boostCoherence (f.orchCoherence (nearestCell ((s.px a + s.px b) * 0.5)
          ((s.py a + s.py b) * 0.5) ((s.pz a + s.pz b) * 0.5))) ∧
      boostCoherence (f.orchCoherence (nearestCell ((s.px a + s.px b) * 0.5)
        ((s.py a + s.py b) * 0.5) ((s.pz a + s.pz b) * 0.5))) ≤ 1) := by
  have hk : (⌊s.spawnAccum + s.injectionRate * dt⌋).toNat = 0 := by
    have h0 : ⌊s.spawnAccum + s.injectionRate * dt⌋ = 0 :=
      Int.floor_eq_zero_iff.mpr (Set.mem_Ico.mpr ⟨hacc0, hacc1⟩)
    rw [h0]
    rfl
  have hgrad := higgsGrad_uniform f huni
  have hba : b ≠ a := hab.ne'
  have hbm1 : ¬((b : ℤ) = -1) := by omega
  have ham1 : ¬((a : ℤ) = -1) := by omega
  have hlt : ((a : ℤ) < (b : ℤ)) := by exact_mod_cast hab
  have hnba : ¬(b < a) := by omega
  have hz_ab_b : hasZ [a, b] (b : ℤ) = true := hasZ_of_mem (by simp)
  have hz4_b : hasZ [b, f0, f1, f2] (b : ℤ) = true := hasZ_of_mem (by simp)
  have ht1 : ¬(TYPE_PHOTON = TYPE_ELECTRON) := by decide
  have ht2 : ¬(TYPE_PHOTON = TYPE_POSITRON) := by decide
  have hcb : f.orchCoherence (nearestCell ((s.px a + s.px b) * 0.5)
      ((s.py a + s.py b) * 0.5) ((s.pz a + s.pz b) * 0.5))
      ≤ boostCoherence (f.orchCoherence (nearestCell ((s.px a + s.px b) * 0.5)
        ((s.py a + s.py b) * 0.5) ((s.pz a + s.pz b) * 0.5))) := by
    unfold boostCoherence
    exact le_min hcoh1 (by linarith)
  have hcb1 : boostCoherence (f.orchCoherence (nearestCell ((s.px a + s.px b) * 0.5)
      ((s.py a + s.py b) * 0.5) ((s.pz a + s.pz b) * 0.5))) ≤ 1 :=
    min_le_left _ _
  refine ⟨?_, ?_, ?_, ?_⟩ <;>
    simp only [psUpdate, hk, Nat.cast_zero, sub_zero, spawnLoop, classify,
      integrateOne, integrateEntry, integratePhys, hact, hta, htb, hlivea, hliveb,
      hva1, hva2, hva3, hvb1, hvb2, hvb3, hgrad, hpa, hpb,
      Function.update_noteq hba, Function.update_noteq hba.symm,
      Function.update_same, hra1, hra2, hra3, hra4, hra5, hra6,
      hrb1, hrb2, hrb3, hrb4, hrb5, hrb6,
      zero_mul, mul_zero, sub_zero, add_zero, zero_add,
      hz_ab_b, hbm1, ham1, hlt, hdist,
      ite_true, ite_false, if_true, if_false, not_false_iff, ne_eq,
      processAll, processOne, spawnPhotons, photonSlotInit, allocP, listAdd,
      emitFlash, setColor,
      flashAging, freeP, Int.toNat_natCast, hfl,
      List.erase_cons_head, hz4_b, ht1, ht2, hab, hnba] <;>
    simp [hf01, hf02, hf12, hf0a, hf0b, hf1a, hf1b, hf2a, hf2b,
      hf01.symm, hf02.symm, hf12.symm, hf0a.symm, hf0b.symm, hf1a.symm,
      hf1b.symm, hf2a.symm, hf2b.symm, hba, hba.symm,
      Function.update_noteq, Function.update_same, List.erase_cons_head,
      hz4_b, hcb, hcb1, boostCoherence, List.mem_cons, hlt, hdist, hgrad, hab, hnba,
      processAll, flashAging]
  exact ⟨hcoh1, by norm_num⟩

/-- C8, witness: the concrete pool with the pair in slots 0 and 1 at
distance 1, free slots 2, 3, 4 next; after one update the active set is
exactly the three spawned photons, typed as photons at the midpoint, and
the nearest cell's coherence was boosted by the bounded 0.4. -/
theorem c8_witness :
    (psUpdate cPool8 zeroField (1/250) zeroUpdateRand).1.active = [2, 3, 4] ∧
    (psUpdate cPool8 zeroField (1/250) zeroUpdateRand).1.type 2 = TYPE_PHOTON ∧
    (psUpdate cPool8 zeroField (1/250) zeroUpdateRand).2.orchCoherence
        (nearestCell ((cPool8.px 0 + cPool8.px 1) * 0.5)
          ((cPool8.py 0 + cPool8.py 1) * 0.5) ((cPool8.pz 0 + cPool8.pz 1) * 0.5))
      = boostCoherence (zeroField.orchCoherence
          (nearestCell ((cPool8.px 0 + cPool8.px 1) * 0.5)
            ((cPool8.py 0 + cPool8.py 1) * 0.5) ((cPool8.pz 0 + cPool8.pz 1) * 0.5))) := by
  have h := c8_thm cPool8 zeroField (1/250) zeroUpdateRand 0 1 2 3 4
    ((List.range MAX).drop 5)
    rfl (by norm_num) rfl rfl (by decide) (by decide)
    (by norm_num [cPool8, basePool]) (by norm_num [cPool8, basePool])
    rfl rfl rfl rfl rfl rfl
    (fun i j => rfl)
    (by norm_num [cPool8, basePool, WORLD_RANGE])
    (by norm_num [cPool8, basePool, WORLD_RANGE])
    (by norm_num [cPool8, basePool, WORLD_RANGE])
    (by norm_num [cPool8, basePool, WORLD_RANGE])
    (by norm_num [cPool8, basePool, WORLD_RANGE])
    (by norm_num [cPool8, basePool, WORLD_RANGE])
    (by norm_num [cPool8, basePool, WORLD_RANGE])
    (by norm_num [cPool8, basePool, WORLD_RANGE])
    (by norm_num [cPool8, basePool, WORLD_RANGE])
    (by norm_num [cPool8, basePool, WORLD_RANGE])
    (by norm_num [cPool8, basePool, WORLD_RANGE])
    (by norm_num [cPool8, basePool, WORLD_RANGE])
    (by norm_num [cPool8, basePool, ANNIHILATION_RADIUS])
    (by norm_num [cPool8, basePool])
    (by norm_num [cPool8, basePool])
    (by decide)
    (by norm_num) (by norm_num) (by norm_num)
    (by norm_num) (by norm_num) (by norm_num)
    (by norm_num) (by norm_num) (by norm_num)
    (by norm_num [zeroField])
  exact ⟨h.1, h.2.1.1, h.2.2.2.1⟩

/-- Freeing a live, unpaired slot preserves pool well-formedness. -/
theorem wf_freeP_unpaired (s : PoolState) (a : ℕ) (hwf : wfPool s)
    (ha : a ∈ s.active) (hp : s.pairWith a = -1) : wfPool (freeP s a) := by
  obtain ⟨w1, w2, w3, w4, w5, w6, w7, w8⟩ := hwf
  have hmem_erase : ∀ i, i ∈ s.active.erase a ↔ i ≠ a ∧ i ∈ s.active :=
    fun i => w1.mem_erase_iff
  refine ⟨w1.erase a, ?_, ?_, ?_, ?_, ?_, ?_, ?_⟩
  · exact List.nodup_cons.mpr ⟨w3 a ha, w2⟩
  · intro i hi
    obtain ⟨hia, hiact⟩ := (hmem_erase i).mp hi
    simp only [freeP, List.mem_cons]
    push_neg
    exact ⟨hia, w3 i hiact⟩
  · intro i hi
    exact w4 i ((hmem_erase i).mp hi).2
  · intro i hi
    rcases List.mem_cons.mp hi with h | h
    · exact h ▸ w4 a ha
    · exact w5 i h
  · intro i hiM hi
    by_cases hia : i = a
    · subst hia
      refine ⟨?_, ?_, ?_, ?_⟩ <;> simp [freeP, Function.update_same]
    · have : i ∉ s.active := fun hmem => hi ((hmem_erase i).mpr ⟨hia, hmem⟩)
      obtain ⟨e1, e2, e3, e4⟩ := w6 i hiM this
      refine ⟨?_, ?_, ?_, ?_⟩ <;>
        simp [freeP, Function.update_noteq hia, e1, e2, e3, e4]
  · intro i hiM
    by_cases hia : i = a
    · subst hia
      simp [freeP, Function.update_same]
    · simp [freeP, Function.update_noteq hia, w7 i hiM]
  · intro i hi hpi
    obtain ⟨hia, hiact⟩ := (hmem_erase i).mp hi
    have hpi' : s.pairWith i ≠ -1 := by
      simpa [freeP, Function.update_noteq hia] using hpi
    obtain ⟨q1, q2, q3, q4⟩ := w8 i hiact hpi'
    have hja : (s.pairWith i).toNat ≠ a := by
      intro hja
      rw [hja, hp] at q4
      omega
    refine ⟨?_, ?_, ?_, ?_⟩
    · simpa [freeP, Function.update_noteq hia] using q1
    · simpa [freeP, Function.update_noteq hia] using q2
    · simp only [freeP]
      rw [Function.update_noteq hia]
      exact (hmem_erase _).mpr ⟨hja, q3⟩
    · simp only [freeP]
      rw [Function.update_noteq hia, Function.update_noteq hja]
      exact q4

/-- Freeing both members of a live mutual pair (in either order of the
two `_free` calls of the processing loop) restores well-formedness. -/
theorem wf_freeP_pair (s : PoolState) (a b : ℕ) (hwf : wfPool s)
    (ha : a ∈ s.active) (hb : b ∈ s.active) (hab : a ≠ b)
    (hpa : s.pairWith a = (b : ℤ)) (hpb : s.pairWith b = (a : ℤ)) :
    wfPool (freeP (freeP s a) b) := by
  obtain ⟨w1, w2, w3, w4, w5, w6, w7, w8⟩ := hwf
  have hmem_e1 : ∀ i, i ∈ s.active.erase a ↔ i ≠ a ∧ i ∈ s.active :=
    fun i => w1.mem_erase_iff
  have hmem_e2 : ∀ i, i ∈ (s.active.erase a).erase b ↔
      i ≠ b ∧ i ≠ a ∧ i ∈ s.active := by
    intro i
    rw [(w1.erase a).mem_erase_iff]
    constructor
    · rintro ⟨h1, h2⟩
      obtain ⟨h3, h4⟩ := (hmem_e1 i).mp h2
      exact ⟨h1, h3, h4⟩
    · rintro ⟨h1, h2, h3⟩
      exact ⟨h1, (hmem_e1 i).mpr ⟨h2, h3⟩⟩
  have hsback : ∀ i, (freeP (freeP s a) b).pairWith i
      = Function.update (Function.update s.pairWith a (-1)) b (-1) i := fun i => rfl
  refine ⟨(w1.erase a).erase b, ?_, ?_, ?_, ?_, ?_, ?_, ?_⟩
  · refine List.nodup_cons.mpr ⟨?_, List.nodup_cons.mpr ⟨w3 a ha, w2⟩⟩
    simp only [freeP, List.mem_cons]
    push_neg
    exact ⟨fun h => hab h.symm, w3 b hb⟩
  · intro i hi
    obtain ⟨h1, h2, h3⟩ := (hmem_e2 i).mp hi
    simp only [freeP, List.mem_cons]
    push_neg
    exact ⟨h1, h2, w3 i h3⟩
  · intro i hi
    exact w4 i ((hmem_e2 i).mp hi).2.2
  · intro i hi
    rcases List.mem_cons.mp hi with h | h
    · exact h ▸ w4 b hb
    · rcases List.mem_cons.mp h with h' | h'
      · exact h' ▸ w4 a ha
      · exact w5 i h'
  · intro i hiM hi
    by_cases hib : i = b
    · subst hib
      refine ⟨?_, ?_, ?_, ?_⟩ <;> simp [freeP, Function.update_same]
    · by_cases hia : i = a
      · subst hia
        refine ⟨?_, ?_, ?_, ?_⟩ <;>
          simp [freeP, Function.update_same, Function.update_noteq hib]
      · have : i ∉ s.active := fun hmem => hi ((hmem_e2 i).mpr ⟨hib, hia, hmem⟩)
        obtain ⟨e1, e2, e3, e4⟩ := w6 i hiM this
        refine ⟨?_, ?_, ?_, ?_⟩ <;>
          simp [freeP, Function.update_noteq hia, Function.update_noteq hib,
            e1, e2, e3, e4]
  · intro i hiM
    by_cases hib : i = b
    · subst hib
      simp [freeP, Function.update_same]
    · by_cases hia : i = a
      · subst hia
        simp [freeP, Function.update_same, Function.update_noteq hib]
      · simp [freeP, Function.update_noteq hia, Function.update_noteq hib, w7 i hiM]
  · intro i hi hpi
    obtain ⟨hib, hia, hiact⟩ := (hmem_e2 i).mp hi
    have hpi' : s.pairWith i ≠ -1 := by
      simpa [freeP, Function.update_noteq hia, Function.update_noteq hib] using hpi
    obtain ⟨q1, q2, q3, q4⟩ := w8 i hiact hpi'
    have hja : (s.pairWith i).toNat ≠ a := by
      intro hja
      rw [hja, hpa] at q4
      have : b = i := by exact_mod_cast q4
      exact hib this.symm
    have hjb : (s.pairWith i).toNat ≠ b := by
      intro hjb
      rw [hjb, hpb] at q4
      have : a = i := by exact_mod_cast q4
      exact hia this.symm
    refine ⟨?_, ?_, ?_, ?_⟩
    · simpa [freeP, Function.update_noteq hia, Function.update_noteq hib] using q1
    · simpa [freeP, Function.update_noteq hia, Function.update_noteq hib] using q2
    · simp only [freeP]
      rw [Function.update_noteq hib, Function.update_noteq hia]
      exact (hmem_e2 _).mpr ⟨hjb, hja, q3⟩
    · simp only [freeP]
      rw [Function.update_noteq hib, Function.update_noteq hia,
        Function.update_noteq hjb, Function.update_noteq hja]
      exact q4

/-- `_setColor` touches only the color channels. -/
theorem setColor_proj (s : PoolState) (i t : ℕ) :
    (setColor s i t).active = s.active ∧
    (setColor s i t).freeList = s.freeList ∧
    (setColor s i t).pairWith = s.pairWith ∧
    (setColor s i t).entangledWith = s.entangledWith ∧
    (setColor s i t).type = s.type ∧
    (setColor s i t).alpha = s.alpha := by
  unfold setColor
  split_ifs <;> exact ⟨rfl, rfl, rfl, rfl, rfl, rfl⟩

/-- The per-slot spawn body keeps the bookkeeping fields, sets the slot's
type, and touches no other slot's alpha. -/
theorem spawnBody_proj (s : PoolState) (i t : ℕ)
    (sv cx cy cz vox voy voz life j0 j1 j2 : ℚ) :
    (spawnBody s i t sv cx cy cz vox voy voz life j0 j1 j2).active = s.active ∧
    (spawnBody s i t sv cx cy cz vox voy voz life j0 j1 j2).freeList = s.freeList ∧
    (spawnBody s i t sv cx cy cz vox voy voz life j0 j1 j2).pairWith = s.pairWith ∧
    (spawnBody s i t sv cx cy cz vox voy voz life j0 j1 j2).entangledWith
      = s.entangledWith ∧
    (spawnBody s i t sv cx cy cz vox voy voz life j0 j1 j2).type
      = Function.update s.type i t ∧
    (spawnBody s i t sv cx cy cz vox voy voz life j0 j1 j2).alpha
      = Function.update s.alpha i 1 := by
  unfold spawnBody
  obtain ⟨c1, c2, c3, c4, c5, c6⟩ := setColor_proj
    { s with
      px := Function.update s.px i (cx + (j0 - 0.5) * 0.3)
      py := Function.update s.py i (cy + (j1 - 0.5) * 0.3)
      pz := Function.update s.pz i (cz + (j2 - 0.5) * 0.3)
      vx := Function.update s.vx i (sv * vox)
      vy := Function.update s.vy i (sv * voy)
      vz := Function.update s.vz i (sv * voz)
      type := Function.update s.type i t
      age := Function.update s.age i 0
      lifetime := Function.update s.lifetime i life
      alpha := Function.update s.alpha i 1
      size := Function.update s.size i (typeSize t) } i t
  exact ⟨c1, c2, c3, c4, c5, c6⟩

/-- Activating the free-list head with cleared relation fields preserves
well-formedness (covers a freshly spawned decay photon). -/
theorem wf_activate (s s' : PoolState) (h : ℕ) (t : List ℕ)
    (hfl : s.freeList = h :: t)
    (hac : s'.active = listAdd s.active h)
    (hfl' : s'.freeList = t)
    (hpw : s'.pairWith = Function.update s.pairWith h (-1))
    (hew : s'.entangledWith = Function.update s.entangledWith h (-1))
    (htp : ∀ i, i ≠ h → s'.type i = s.type i)
    (hal : ∀ i, i ≠ h → s'.alpha i = s.alpha i)
    (hwf : wfPool s) : wfPool s' := by
  obtain ⟨w1, w2, w3, w4, w5, w6, w7, w8⟩ := hwf
  have hhf : h ∈ s.freeList := hfl ▸ List.mem_cons_self h t
  have hha : h ∉ s.active := fun hmem => (w3 h hmem) hhf
  have hhM : h < MAX := w5 h hhf
  have htnd : (h :: t).Nodup := hfl ▸ w2
  have hht : h ∉ t := (List.nodup_cons.mp htnd).1
  have htd : t.Nodup := (List.nodup_cons.mp htnd).2
  have hac' : s'.active = s.active ++ [h] := by
    rw [hac]; unfold listAdd; rw [if_neg hha]
  have hmem' : ∀ i, i ∈ s'.active ↔ i ∈ s.active ∨ i = h := by
    intro i
    rw [hac']
    simp [List.mem_append]
  refine ⟨?_, ?_, ?_, ?_, ?_, ?_, ?_, ?_⟩
  · rw [hac']
    simp only [List.nodup_append, List.nodup_cons, List.not_mem_nil,
      not_false_iff, List.nodup_nil, and_true, true_and]
    constructor
    · exact w1
    · intro x hx
      simp only [List.mem_singleton]
      exact fun he => hha (he ▸ hx)
  · exact hfl' ▸ htd
  · intro i hi
    rw [hfl']
    rcases (hmem' i).mp hi with hmem | he
    · intro hit
      exact (w3 i hmem) (hfl ▸ List.mem_cons_of_mem h hit)
    · exact he ▸ hht
  · intro i hi
    rcases (hmem' i).mp hi with hmem | he
    · exact w4 i hmem
    · exact he ▸ hhM
  · intro i hi
    exact w5 i (hfl ▸ List.mem_cons_of_mem h (hfl' ▸ hi))
  · intro i hiM hi
    have hih : i ≠ h := fun he => hi ((hmem' i).mpr (Or.inr he))
    have hia : i ∉ s.active := fun hmem => hi ((hmem' i).mpr (Or.inl hmem))
    obtain ⟨e1, e2, e3, e4⟩ := w6 i hiM hia
    refine ⟨?_, ?_, ?_, ?_⟩
    · rw [hpw, Function.update_noteq hih]; exact e1
    · rw [hew, Function.update_noteq hih]; exact e2
    · rw [htp i hih]; exact e3
    · rw [hal i hih]; exact e4
  · intro i hiM
    by_cases hih : i = h
    · subst hih
      rw [hpw, hew, Function.update_same, Function.update_same]
    · rw [hpw, hew, Function.update_noteq hih, Function.update_noteq hih]
      exact w7 i hiM
  · intro i hi hpi
    by_cases hih : i = h
    · subst hih
      rw [hpw, Function.update_same] at hpi
      exact absurd rfl hpi
    · rw [hpw, Function.update_noteq hih] at hpi ⊢
      have hiact : i ∈ s.active := ((hmem' i).mp hi).resolve_right hih
      obtain ⟨q1, q2, q3, q4⟩ := w8 i hiact hpi
      have hjh : (s.pairWith i).toNat ≠ h := fun he => hha (he ▸ q3)
      refine ⟨q1, q2, (hmem' _).mpr (Or.inl q3), ?_⟩
      rw [Function.update_noteq hjh]
      exact q4

/-- Bookkeeping of a freshly initialized photon slot. -/
theorem photonSlotInit_proj (s : PoolState) (i : ℕ) (x y z : ℚ) (pR : PhotonRand) :
    (photonSlotInit s i x y z pR).active = s.active ∧
    (photonSlotInit s i x y z pR).freeList = s.freeList ∧
    (photonSlotInit s i x y z pR).pairWith = Function.update s.pairWith i (-1) ∧
    (photonSlotInit s i x y z pR).entangledWith
      = Function.update s.entangledWith i (-1) ∧
    (∀ j, j ≠ i → (photonSlotInit s i x y z pR).type j = s.type j) ∧
    (∀ j, j ≠ i → (photonSlotInit s i x y z pR).alpha j = s.alpha j) := by
  unfold photonSlotInit
  obtain ⟨c1, c2, c3, c4, c5, c6⟩ := setColor_proj
    { s with
      px := Function.update s.px i x
      py := Function.update s.py i y
      pz := Function.update s.pz i z
      vx := Function.update s.vx i pR.vx
      vy := Function.update s.vy i pR.vy
      vz := Function.update s.vz i pR.vz
      type := Function.update s.type i TYPE_PHOTON
      age := Function.update s.age i 0
      lifetime := Function.update s.lifetime i (0.4 + pR.lifeR * 0.4)
      alpha := Function.update s.alpha i 1
      size := Function.update s.size i 6 } i TYPE_PHOTON
  refine ⟨c1, c2, ?_, ?_, ?_, ?_⟩
  · exact congrArg (fun g => Function.update g i (-1)) c3
  · exact congrArg (fun g => Function.update g i (-1)) c4
  · intro j hj
    exact (congrFun c5 j).trans (Function.update_noteq hj _ _)
  · intro j hj
    exact (congrFun c6 j).trans (Function.update_noteq hj _ _)

/-- Spawning decay photons preserves well-formedness, keeps every
previously active slot active with its pairing untouched, and clears (or
keeps) every slot's pairing. -/
theorem wf_spawnPhotons (pr : ℕ → PhotonRand) (x y z : ℚ) :
    ∀ (k : ℕ) (s : PoolState) (ctr : ℕ), wfPool s →
    wfPool (spawnPhotons pr x y z s ctr k).1 ∧
    (∀ i ∈ s.active, i ∈ (spawnPhotons pr x y z s ctr k).1.active) ∧
    (∀ i ∈ s.active, (spawnPhotons pr x y z s ctr k).1.pairWith i = s.pairWith i) ∧
    (∀ i, (spawnPhotons pr x y z s ctr k).1.pairWith i = s.pairWith i ∨
      (spawnPhotons pr x y z s ctr k).1.pairWith i = -1) := by
  intro k
  induction k with
  | zero =>
      intro s ctr hwf
      exact ⟨hwf, fun i hi => hi, fun i _ => rfl, fun i => Or.inl rfl⟩
  | succ k ih =>
      intro s ctr hwf
      cases hfl : s.freeList with
      | nil =>
          have hred : spawnPhotons pr x y z s ctr (k + 1) = (s, ctr) := by
            simp [spawnPhotons, allocP, hfl]
          rw [hred]
          exact ⟨hwf, fun i hi => hi, fun i _ => rfl, fun i => Or.inl rfl⟩
      | cons h t =>
          have hha : h ∉ s.active := fun hmem =>
            (hwf.2.2.1 h hmem) (hfl ▸ List.mem_cons_self h t)
          obtain ⟨p1, p2, p3, p4, p5, p6⟩ := photonSlotInit_proj
            { s with freeList := t, active := listAdd s.active h } h x y z (pr ctr)
          have hred : spawnPhotons pr x y z s ctr (k + 1)
              = spawnPhotons pr x y z
                (photonSlotInit { s with freeList := t, active := listAdd s.active h }
                  h x y z (pr ctr)) (ctr + 1) k := by
            simp [spawnPhotons, allocP, hfl]
          have hwf' : wfPool (photonSlotInit
              { s with freeList := t, active := listAdd s.active h } h x y z (pr ctr)) := by
            refine wf_activate s _ h t hfl ?_ ?_ ?_ ?_ ?_ ?_ hwf
            · exact p1
            · exact p2
            · exact p3
            · exact p4
            · exact p5
            · exact p6
          obtain ⟨ih1, ih2, ih3, ih4⟩ := ih
            (photonSlotInit { s with freeList := t, active := listAdd s.active h }
              h x y z (pr ctr)) (ctr + 1) hwf'
          rw [hred]
          refine ⟨ih1, ?_, ?_, ?_⟩
          · intro i hi
            apply ih2
            rw [p1]
            unfold listAdd
            split
            · exact hi
            · exact List.mem_append_left _ hi
          · intro i hi
            have hih : i ≠ h := fun he => hha (he ▸ hi)
            have hmem' : i ∈ (photonSlotInit
                { s with freeList := t, active := listAdd s.active h }
                h x y z (pr ctr)).active := by
              rw [p1]
              unfold listAdd
              split
              · exact hi
              · exact List.mem_append_left _ hi
            rw [ih3 i hmem', p3, Function.update_noteq hih]
          · intro i
            rcases ih4 i with he | he
            · rw [he, p3]
              by_cases hih : i = h
              · subst hih
                rw [Function.update_same]
                exact Or.inr rfl
              · rw [Function.update_noteq hih]
                exact Or.inl rfl
            · exact Or.inr he

/-- Activating the two top free slots as a mutual pair preserves
well-formedness (covers a successful `spawnPair`). -/
theorem wf_pairup (s s' : PoolState) (a b : ℕ) (rest : List ℕ)
    (hfl : s.freeList = a :: b :: rest)
    (hac : s'.active = listAdd (listAdd s.active a) b)
    (hfl' : s'.freeList = rest)
    (hpw : s'.pairWith
      = Function.update (Function.update s.pairWith a (b : ℤ)) b (a : ℤ))
    (hew : s'.entangledWith
      = Function.update (Function.update s.entangledWith a (b : ℤ)) b (a : ℤ))
    (htp : ∀ i, i ≠ a → i ≠ b → s'.type i = s.type i)
    (hal : ∀ i, i ≠ a → i ≠ b → s'.alpha i = s.alpha i)
    (hwf : wfPool s) : wfPool s' := by
  obtain ⟨w1, w2, w3, w4, w5, w6, w7, w8⟩ := hwf
  have haf : a ∈ s.freeList := hfl ▸ List.mem_cons_self a (b :: rest)
  have hbf : b ∈ s.freeList := hfl ▸ List.mem_cons_of_mem a (List.mem_cons_self b rest)
  have hand : (a :: b :: rest).Nodup := hfl ▸ w2
  have hab : a ≠ b := by
    intro he
    exact (List.nodup_cons.mp hand).1 (he ▸ List.mem_cons_self b rest)
  have har : a ∉ rest := fun hr =>
    (List.nodup_cons.mp hand).1 (List.mem_cons_of_mem b hr)
  have hbr : b ∉ rest := (List.nodup_cons.mp (List.nodup_cons.mp hand).2).1
  have hrd : rest.Nodup := (List.nodup_cons.mp (List.nodup_cons.mp hand).2).2
  have haa : a ∉ s.active := fun hmem => (w3 a hmem) haf
  have hba : b ∉ s.active := fun hmem => (w3 b hmem) hbf
  have haM : a < MAX := w5 a haf
  have hbM : b < MAX := w5 b hbf
  have hac' : s'.active = (s.active ++ [a]) ++ [b] := by
    rw [hac]
    unfold listAdd
    rw [if_neg haa, if_neg (by
      simp only [List.mem_append, List.mem_singleton]
      push_neg
      exact ⟨hba, fun he => hab he.symm⟩)]
  have hmem' : ∀ i, i ∈ s'.active ↔ i ∈ s.active ∨ i = a ∨ i = b := by
    intro i
    rw [hac']
    simp [List.mem_append, or_assoc]
  refine ⟨?_, hfl' ▸ hrd, ?_, ?_, ?_, ?_, ?_, ?_⟩
  · rw [hac', List.append_assoc]
    refine w1.append ?_ ?_
    · simp [hab]
    · intro x hx hmem
      rcases List.mem_append.mp hmem with h1 | h1
      · exact haa ((List.mem_singleton.mp h1) ▸ hx)
      · exact hba ((List.mem_singleton.mp h1) ▸ hx)
  · intro i hi
    rw [hfl']
    rcases (hmem' i).mp hi with hmem | he | he
    · intro hit
      exact (w3 i hmem) (hfl ▸ List.mem_cons_of_mem a (List.mem_cons_of_mem b hit))
    · exact he ▸ har
    · exact he ▸ hbr
  · intro i hi
    rcases (hmem' i).mp hi with hmem | he | he
    · exact w4 i hmem
    · exact he ▸ haM
    · exact he ▸ hbM
  · intro i hi
    refine w5 i (hfl ▸ ?_)
    exact List.mem_cons_of_mem a (List.mem_cons_of_mem b (hfl' ▸ hi))
  · intro i hiM hi
    have hia : i ≠ a := fun he => hi ((hmem' i).mpr (Or.inr (Or.inl he)))
    have hib : i ≠ b := fun he => hi ((hmem' i).mpr (Or.inr (Or.inr he)))
    have hiact : i ∉ s.active := fun hmem => hi ((hmem' i).mpr (Or.inl hmem))
    obtain ⟨e1, e2, e3, e4⟩ := w6 i hiM hiact
    refine ⟨?_, ?_, ?_, ?_⟩
    · rw [hpw, Function.update_noteq hib, Function.update_noteq hia]; exact e1
    · rw [hew, Function.update_noteq hib, Function.update_noteq hia]; exact e2
    · rw [htp i hia hib]; exact e3
    · rw [hal i hia hib]; exact e4
  · intro i hiM
    by_cases hib : i = b
    · subst hib
      rw [hpw, hew, Function.update_same, Function.update_same]
    · by_cases hia : i = a
      · subst hia
        rw [hpw, hew, Function.update_noteq hib, Function.update_noteq hib,
          Function.update_same, Function.update_same]
      · rw [hpw, hew, Function.update_noteq hib, Function.update_noteq hib,
          Function.update_noteq hia, Function.update_noteq hia]
        exact w7 i hiM
  · intro i hi hpi
    by_cases hib : i = b
    · subst hib
      rw [hpw, Function.update_same]
      refine ⟨by omega, ?_, ?_, ?_⟩
      · rw [Int.toNat_natCast]
        exact fun he => hab he
      · rw [Int.toNat_natCast]
        exact (hmem' a).mpr (Or.inr (Or.inl rfl))
      · rw [Int.toNat_natCast, Function.update_noteq hab, Function.update_same]
    · by_cases hia : i = a
      · subst hia
        rw [hpw, Function.update_noteq hab, Function.update_same]
        refine ⟨by omega, ?_, ?_, ?_⟩
        · rw [Int.toNat_natCast]
          exact fun he => hab he.symm
        · rw [Int.toNat_natCast]
          exact (hmem' b).mpr (Or.inr (Or.inr rfl))
        · rw [Int.toNat_natCast, Function.update_same]
      · have hiact : i ∈ s.active := ((hmem' i).mp hi).resolve_right
          (fun h => h.elim hia hib)
        rw [hpw, Function.update_noteq hib, Function.update_noteq hia] at hpi ⊢
        obtain ⟨q1, q2, q3, q4⟩ := w8 i hiact hpi
        have hja : (s.pairWith i).toNat ≠ a := fun he => haa (he ▸ q3)
        have hjb : (s.pairWith i).toNat ≠ b := fun he => hba (he ▸ q3)
        refine ⟨q1, q2, (hmem' _).mpr (Or.inl q3), ?_⟩
        rw [Function.update_noteq hjb, Function.update_noteq hja]
        exact q4

/-- A bare allocation (free-list head into the active set) preserves
well-formedness: the activated slot is fresh, so its relation fields are
already cleared. -/
theorem wf_alloc (s : PoolState) (h : ℕ) (t : List ℕ) (hwf : wfPool s)
    (hfl : s.freeList = h :: t) :
    wfPool { s with freeList := t, active := listAdd s.active h } := by
  have hhf : h ∈ s.freeList := hfl ▸ List.mem_cons_self h t
  have hha : h ∉ s.active := fun hmem => (hwf.2.2.1 h hmem) hhf
  have hhM : h < MAX := hwf.2.2.2.2.1 h hhf
  obtain ⟨e1, e2, _, _⟩ := hwf.2.2.2.2.2.1 h hhM hha
  refine wf_activate s _ h t hfl rfl rfl ?_ ?_ (fun i _ => rfl) (fun i _ => rfl) hwf
  · show s.pairWith = _
    rw [← e1]
    exact (Function.update_eq_self h s.pairWith).symm
  · show s.entangledWith = _
    rw [← e2]
    exact (Function.update_eq_self h s.entangledWith).symm

/-- `spawnPair` preserves pool well-formedness in every branch: no free
slot, rollback after a half-failed allocation, and a successful pair. -/
theorem wf_spawnPair (s : PoolState) (f : FieldState) (sr : SpawnRand) (tA tB : ℕ)
    (hwf : wfPool s) : wfPool (spawnPair s f sr tA tB) := by
  cases hfl : s.freeList with
  | nil =>
      have hred : spawnPair s f sr tA tB = s := by
        simp [spawnPair, allocP, hfl]
      rw [hred]
      exact hwf
  | cons a t =>
      cases ht : t with
      | nil =>
          subst ht
          have hred : spawnPair s f sr tA tB
              = freeP { s with freeList := [], active := listAdd s.active a } a := by
            simp [spawnPair, allocP, hfl]
          rw [hred]
          have hwf1 : wfPool { s with freeList := [], active := listAdd s.active a } :=
            wf_alloc s a [] hwf hfl
          have hha : a ∉ s.active := fun hmem =>
            (hwf.2.2.1 a hmem) (hfl ▸ List.mem_cons_self a [])
          have haM : a < MAX := hwf.2.2.2.2.1 a (hfl ▸ List.mem_cons_self a [])
          refine wf_freeP_unpaired _ a hwf1 ?_ ?_
          · show a ∈ listAdd s.active a
            unfold listAdd
            split
            · assumption
            · exact List.mem_append_right _ (List.mem_singleton_self a)
          · exact (hwf.2.2.2.2.2.1 a haM hha).1
      | cons b t2 =>
          subst ht
          obtain ⟨pa1, pa2, pa3, pa4, pa5, pa6⟩ := spawnBody_proj
            { s with freeList := t2, active := listAdd (listAdd s.active a) b }
            a tA 1 (sampleHotspot f sr).1 (sampleHotspot f sr).2.1
            (sampleHotspot f sr).2.2 sr.vox sr.voy sr.voz (1.0 + sr.lifeR * 3.0)
            (sr.jit 0) (sr.jit 1) (sr.jit 2)
          obtain ⟨pb1, pb2, pb3, pb4, pb5, pb6⟩ := spawnBody_proj
            (spawnBody { s with freeList := t2, active := listAdd (listAdd s.active a) b }
              a tA 1 (sampleHotspot f sr).1 (sampleHotspot f sr).2.1
              (sampleHotspot f sr).2.2 sr.vox sr.voy sr.voz (1.0 + sr.lifeR * 3.0)
              (sr.jit 0) (sr.jit 1) (sr.jit 2))
            b tB (-1) (sampleHotspot f sr).1 (sampleHotspot f sr).2.1
            (sampleHotspot f sr).2.2 sr.vox sr.voy sr.voz (1.0 + sr.lifeR * 3.0)
            (sr.jit 3) (sr.jit 4) (sr.jit 5)
          have hred : spawnPair s f sr tA tB
              = { (spawnBody (spawnBody
                    { s with freeList := t2, active := listAdd (listAdd s.active a) b }
                    a tA 1 (sampleHotspot f sr).1 (sampleHotspot f sr).2.1
                    (sampleHotspot f sr).2.2 sr.vox sr.voy sr.voz (1.0 + sr.lifeR * 3.0)
                    (sr.jit 0) (sr.jit 1) (sr.jit 2))
                  b tB (-1) (sampleHotspot f sr).1 (sampleHotspot f sr).2.1
                  (sampleHotspot f sr).2.2 sr.vox sr.voy sr.voz (1.0 + sr.lifeR * 3.0)
                  (sr.jit 3) (sr.jit 4) (sr.jit 5)) with
                  pairWith := Function.update (Function.update
                    (spawnBody (spawnBody
                      { s with freeList := t2, active := listAdd (listAdd s.active a) b }
                      a tA 1 (sampleHotspot f sr).1 (sampleHotspot f sr).2.1
                      (sampleHotspot f sr).2.2 sr.vox sr.voy sr.voz (1.0 + sr.lifeR * 3.0)
                      (sr.jit 0) (sr.jit 1) (sr.jit 2))
                      b tB (-1) (sampleHotspot f sr).1 (sampleHotspot f sr).2.1
                      (sampleHotspot f sr).2.2 sr.vox sr.voy sr.voz (1.0 + sr.lifeR * 3.0)
                      (sr.jit 3) (sr.jit 4) (sr.jit 5)).pairWith a (b : ℤ)) b (a : ℤ)
                  entangledWith := Function.update (Function.update
                    (spawnBody (spawnBody
                      { s with freeList := t2, active := listAdd (listAdd s.active a) b }
                      a tA 1 (sampleHotspot f sr).1 (sampleHotspot f sr).2.1
                      (sampleHotspot f sr).2.2 sr.vox sr.voy sr.voz (1.0 + sr.lifeR * 3.0)
                      (sr.jit 0) (sr.jit 1) (sr.jit 2))
                      b tB (-1) (sampleHotspot f sr).1 (sampleHotspot f sr).2.1
                      (sampleHotspot f sr).2.2 sr.vox sr.voy sr.voz (1.0 + sr.lifeR * 3.0)
                      (sr.jit 3) (sr.jit 4) (sr.jit 5)).entangledWith a (b : ℤ)) b (a : ℤ) } := by
            simp only [spawnPair, allocP, hfl]
          rw [hred]
          refine wf_pairup s _ a b t2 hfl ?_ ?_ ?_ ?_ ?_ ?_ hwf
          · exact pb1.trans pa1
          · exact pb2.trans pa2
          · exact congrArg (fun g => Function.update (Function.update g a (b : ℤ)) b (a : ℤ))
              (pb3.trans pa3)
          · exact congrArg (fun g => Function.update (Function.update g a (b : ℤ)) b (a : ℤ))
              (pb4.trans pa4)
          · intro i hia hib
            have h1 := congrFun pb5 i
            rw [Function.update_noteq hib] at h1
            have h2 := congrFun pa5 i
            rw [Function.update_noteq hia] at h2
            exact h1.trans h2
          · intro i hia hib
            have h1 := congrFun pb6 i
            rw [Function.update_noteq hib] at h1
            have h2 := congrFun pa6 i
            rw [Function.update_noteq hia] at h2
            exact h1.trans h2

/-- The injection while-loop preserves well-formedness. -/
theorem wf_spawnLoop (f : FieldState) (R : UpdateRand) :
    ∀ (k j : ℕ) (s : PoolState), wfPool s → wfPool (spawnLoop f R s j k) := by
  intro k
  induction k with
  | zero => intro j s hwf; exact hwf
  | succ k ih =>
      intro j s hwf
      have hred : spawnLoop f R s j (k + 1)
          = spawnLoop f R
              (if R.typeR j < 0.5 then
                spawnPair s f (R.spawnR j) TYPE_ELECTRON TYPE_POSITRON
              else if R.typeR j < 0.8 then
                spawnPair s f (R.spawnR j) TYPE_HIGGS TYPE_ANTI_HIGGS
              else spawnPair s f (R.spawnR j) TYPE_ELECTRON TYPE_POSITRON)
              (j + 1) k := rfl
      rw [hred]
      refine ih (j + 1) _ ?_
      split_ifs with h1 h2
      · exact wf_spawnPair s f (R.spawnR j) _ _ hwf
      · exact wf_spawnPair s f (R.spawnR j) _ _ hwf
      · exact wf_spawnPair s f (R.spawnR j) _ _ hwf

/-- The per-particle loop body preserves well-formedness for live slots
(only the processed slot's motion channels and alpha are written). -/
theorem wf_integrateOne (f : FieldState) (dt : ℚ) (s : PoolState) (i : ℕ)
    (hwf : wfPool s) (hi : i ∈ s.active) : wfPool (integrateOne f dt s i).1 := by
  obtain ⟨w1, w2, w3, w4, w5, w6, w7, w8⟩ := hwf
  unfold integrateOne
  split
  · exact ⟨w1, w2, w3, w4, w5, w6, w7, w8⟩
  · show wfPool (integratePhys f dt s i)
    refine ⟨w1, w2, w3, w4, w5, ?_, w7, w8⟩
    intro j hjM hj
    obtain ⟨e1, e2, e3, e4⟩ := w6 j hjM hj
    have hji : j ≠ i := fun h => hj (h ▸ hi)
    have hal : (integratePhys f dt s i).alpha j = s.alpha j :=
      Function.update_noteq hji _ _
    exact ⟨e1, e2, e3, hal.trans e4⟩

/-- The whole classification pass preserves well-formedness. -/
theorem wf_classify (f : FieldState) (dt : ℚ) :
    ∀ (l : List ℕ) (s : PoolState), wfPool s → (∀ i ∈ l, i ∈ s.active) →
    wfPool (classify f dt s l).1 := by
  intro l
  induction l with
  | nil => intro s hwf _; exact hwf
  | cons i rest ih =>
      intro s hwf hsub
      show wfPool (classify f dt (integrateOne f dt s i).1 rest).1
      refine ih _ ?_ ?_
      · exact wf_integrateOne f dt s i hwf (hsub i (List.mem_cons_self i rest))
      · intro j hj
        rw [(integrateOne_proj f dt s i).1]
        exact hsub j (List.mem_cons_of_mem i hj)

/-- Every record the loop body can emit for a live slot is well-formed
relative to the classification-time pairing and active list: either a
solo natural death of an unpaired slot, or a record carrying the mutual
live partner. -/
theorem entOK_integrateEntry (f : FieldState) (dt : ℚ) (s : PoolState) (i : ℕ)
    (hwf : wfPool s) (hi : i ∈ s.active) :
    ∀ e, integrateEntry f dt s i = some e → EntOK s.pairWith s.active e := by
  obtain ⟨w1, w2, w3, w4, w5, w6, w7, w8⟩ := hwf
  have hiM : i < MAX := w4 i hi
  have hew : s.entangledWith i = s.pairWith i := w7 i hiM
  intro e he
  simp only [integrateEntry] at he
  split_ifs at he with h1 h2 h3 h4
  · have he' : e = (i, s.entangledWith i, false) := (Option.some.inj he).symm
    subst he'
    have hpne : s.pairWith i ≠ -1 := hew ▸ h2.1
    obtain ⟨q1, q2, q3, q4⟩ := w8 i hi hpne
    exact Or.inr ⟨by rw [hew]; exact q1, hew, by rw [hew]; exact q4,
      by rw [hew]; exact q3, by rw [hew]; exact q2⟩
  · have he' : e = (i, -1, false) := (Option.some.inj he).symm
    subst he'
    have hp0 : s.pairWith i = -1 := by
      by_contra hne
      obtain ⟨q1, q2, q3, q4⟩ := w8 i hi hne
      apply h2
      refine ⟨by rw [hew]; exact hne, ?_⟩
      rw [hew]
      have hc : ((s.pairWith i).toNat : ℤ) = s.pairWith i := Int.toNat_of_nonneg q1
      rw [← hc]
      exact hasZ_of_mem q3
    exact Or.inl ⟨rfl, hp0⟩
  · have he' : e = (i, s.pairWith i, true) := (Option.some.inj he).symm
    subst he'
    obtain ⟨q1, q2, q3, q4⟩ := w8 i hi h3.1
    exact Or.inr ⟨q1, rfl, q4, q3, q2⟩

/-- Every record collected by the classification pass is well-formed
relative to the pass's initial pairing and active list. -/
theorem classify_entries (f : FieldState) (dt : ℚ) :
    ∀ (l : List ℕ) (s : PoolState), wfPool s → (∀ i ∈ l, i ∈ s.active) →
    ∀ e ∈ (classify f dt s l).2, EntOK s.pairWith s.active e := by
  intro l
  induction l with
  | nil => intro s _ _ e he; exact absurd he (List.not_mem_nil e)
  | cons i rest ih =>
      intro s hwf hsub e he
      have hi : i ∈ s.active := hsub i (List.mem_cons_self i rest)
      have hwf' : wfPool (integrateOne f dt s i).1 := wf_integrateOne f dt s i hwf hi
      have hsub' : ∀ j ∈ rest, j ∈ (integrateOne f dt s i).1.active := by
        intro j hj
        rw [(integrateOne_proj f dt s i).1]
        exact hsub j (List.mem_cons_of_mem i hj)
      have htail := ih (integrateOne f dt s i).1 hwf' hsub'
      have hshape : (classify f dt s (i :: rest)).2
          = (match (integrateOne f dt s i).2 with
            | some e0 => e0 :: (classify f dt (integrateOne f dt s i).1 rest).2
            | none => (classify f dt (integrateOne f dt s i).1 rest).2) := rfl
      rcases hro : (integrateOne f dt s i).2 with _ | e0
      · have hv : (classify f dt s (i :: rest)).2
            = (classify f dt (integrateOne f dt s i).1 rest).2 := by
          rw [hshape, hro]
        rw [hv] at he
        have ht := htail e he
        rwa [(integrateOne_proj f dt s i).2.2.2.1, (integrateOne_proj f dt s i).1] at ht
      · have hv : (classify f dt s (i :: rest)).2
            = e0 :: (classify f dt (integrateOne f dt s i).1 rest).2 := by
          rw [hshape, hro]
        rw [hv] at he
        rcases List.mem_cons.mp he with rfl | he'
        · have h2 : (integrateOne f dt s i).2
              = if s.type i = TYPE_INACTIVE then none else integrateEntry f dt s i := by
            by_cases hc : s.type i = TYPE_INACTIVE
            · simp [integrateOne, hc]
            · simp [integrateOne, hc]
          rw [h2] at hro
          split_ifs at hro with hc
          exact entOK_integrateEntry f dt s i ⟨hwf.1, hwf.2⟩ hi e hro
        · have ht := htail e he'
          rwa [(integrateOne_proj f dt s i).2.2.2.1, (integrateOne_proj f dt s i).1] at ht

/-- `_free` only ever clears pairing entries, so pairing decay relative
to the classification-time pairing is preserved. -/
theorem pairDecay_freeP (p0 : ℕ → ℤ) (s : PoolState) (i : ℕ)
    (hd : pairDecay p0 s) : pairDecay p0 (freeP s i) := by
  intro j
  by_cases hji : j = i
  · subst hji
    right
    show Function.update s.pairWith j (-1) j = -1
    exact Function.update_same j (-1) s.pairWith
  · rcases hd j with h | h
    · left
      show Function.update s.pairWith i (-1) j = p0 j
      rw [Function.update_noteq hji]
      exact h
    · right
      show Function.update s.pairWith i (-1) j = -1
      rw [Function.update_noteq hji]
      exact h

/-- The freeing phase of one `toAnnihilate` record: free the recorded
slot, then free the recorded partner if it is still live.  Starting from
any well-formed, pairing-decayed state in which the record is
well-formed, the result is well-formed and pairing-decayed again (the
invariant is transiently broken between the two `_free` calls when both
members are freed). -/
theorem wf_freePhase (p0 : ℕ → ℤ) (sP : PoolState) (a : ℕ) (b : ℤ)
    (hwf : wfPool sP) (hd : pairDecay p0 sP) (ha : a ∈ sP.active)
    (hpa0 : b = -1 → p0 a = -1)
    (hpab : b ≠ -1 → 0 ≤ b ∧ p0 a = b ∧ p0 b.toNat = (a : ℤ)) :
    wfPool (if b ≠ -1 ∧ hasZ (freeP sP a).active b
        then freeP (freeP sP a) b.toNat else freeP sP a) ∧
    pairDecay p0 (if b ≠ -1 ∧ hasZ (freeP sP a).active b
        then freeP (freeP sP a) b.toNat else freeP sP a) := by
  have hdf : pairDecay p0 (freeP sP a) := pairDecay_freeP p0 sP a hd
  split_ifs with hc
  · obtain ⟨hbne, hbz⟩ := hc
    obtain ⟨hb0, hpab1, hpab2⟩ := hpab hbne
    obtain ⟨j, hj, hjb⟩ := hasZ_iff.mp hbz
    have hjbt : b.toNat = j := by rw [← hjb]; exact Int.toNat_natCast j
    have hja : j ≠ a := (hwf.1.mem_erase_iff.mp hj).1
    have hjact : j ∈ sP.active := (hwf.1.mem_erase_iff.mp hj).2
    rcases hd a with hpaa | hpaa
    · have hpaB : sP.pairWith a = b := by rw [hpaa, hpab1]
      have hpne : sP.pairWith a ≠ -1 := by rw [hpaB]; exact hbne
      obtain ⟨q1, q2, q3, q4⟩ := hwf.2.2.2.2.2.2.2 a ha hpne
      have hq4 : sP.pairWith b.toNat = (a : ℤ) := by rw [← hpaB]; exact q4
      have hba : b.toNat ≠ a := by rw [hpaB] at q2; exact q2
      have hbact : b.toNat ∈ sP.active := by rw [hpaB] at q3; exact q3
      have hpaCast : sP.pairWith a = ((b.toNat : ℕ) : ℤ) := by
        rw [hpaB, Int.toNat_of_nonneg hb0]
      constructor
      · exact wf_freeP_pair sP a b.toNat hwf ha hbact (fun h => hba h.symm)
          hpaCast hq4
      · exact pairDecay_freeP p0 _ _ hdf
    · have hwf2 : wfPool (freeP sP a) := wf_freeP_unpaired sP a hwf ha hpaa
      have hpj : (freeP sP a).pairWith j = -1 := by
        rcases hdf j with hj1 | hj1
        · exfalso
          have hja' : (freeP sP a).pairWith j = (a : ℤ) := by
            rw [hj1, ← hjbt]
            exact hpab2
          have hne : (freeP sP a).pairWith j ≠ -1 := by
            rw [hja']
            intro h
            omega
          obtain ⟨r1, r2, r3, r4⟩ := hwf2.2.2.2.2.2.2.2 j hj hne
          rw [hja', Int.toNat_natCast] at r3
          exact (hwf.1.mem_erase_iff.mp r3).1 rfl
        · exact hj1
      have hwf3 : wfPool (freeP (freeP sP a) b.toNat) := by
        rw [hjbt]
        exact wf_freeP_unpaired _ j hwf2 hj hpj
      exact ⟨hwf3, pairDecay_freeP p0 _ _ hdf⟩
  · push_neg at hc
    have hpa : sP.pairWith a = -1 := by
      rcases hd a with hpaa | hpaa
      · by_cases hb : b = -1
        · rw [hpaa, hpa0 hb]
        · exfalso
          obtain ⟨hb0, hpab1, hpab2⟩ := hpab hb
          have hpne : sP.pairWith a ≠ -1 := by
            rw [hpaa, hpab1]
            exact hb
          obtain ⟨q1, q2, q3, q4⟩ := hwf.2.2.2.2.2.2.2 a ha hpne
          have hmem2 : (sP.pairWith a).toNat ∈ (freeP sP a).active := by
            show _ ∈ sP.active.erase a
            exact (hwf.1.mem_erase_iff).mpr ⟨q2, q3⟩
          have hz := hasZ_of_mem hmem2
          rw [Int.toNat_of_nonneg q1, hpaa, hpab1] at hz
          exact (hc hb) hz
      · exact hpaa
    exact ⟨wf_freeP_unpaired sP a hwf ha hpa, hdf⟩

/-- The flash variant of record processing: photons and the flash are
spawned first (allocating fresh unpaired slots), then the two frees run.
Well-formedness and pairing decay are preserved. -/
theorem wf_processOne_flash (pr : ℕ → PhotonRand) (p0 : ℕ → ℤ) (x y z : ℚ)
    (s : PoolState) (ctr k : ℕ) (a : ℕ) (b : ℤ)
    (hwf : wfPool s) (hd : pairDecay p0 s) (ha : a ∈ s.active)
    (hpa0 : b = -1 → p0 a = -1)
    (hpab : b ≠ -1 → 0 ≤ b ∧ p0 a = b ∧ p0 b.toNat = (a : ℤ)) :
    wfPool (if b ≠ -1 ∧
          hasZ (freeP (emitFlash (spawnPhotons pr x y z s ctr k).1 x y z) a).active b
        then freeP (freeP (emitFlash (spawnPhotons pr x y z s ctr k).1 x y z) a) b.toNat
        else freeP (emitFlash (spawnPhotons pr x y z s ctr k).1 x y z) a) ∧
    pairDecay p0 (if b ≠ -1 ∧
          hasZ (freeP (emitFlash (spawnPhotons pr x y z s ctr k).1 x y z) a).active b
        then freeP (freeP (emitFlash (spawnPhotons pr x y z s ctr k).1 x y z) a) b.toNat
        else freeP (emitFlash (spawnPhotons pr x y z s ctr k).1 x y z) a) := by
  obtain ⟨g1, g2, g3, g4⟩ := wf_spawnPhotons pr x y z k s ctr hwf
  have hwfE : wfPool (emitFlash (spawnPhotons pr x y z s ctr k).1 x y z) := g1
  have haE : a ∈ (emitFlash (spawnPhotons pr x y z s ctr k).1 x y z).active :=
    g2 a ha
  have hdE : pairDecay p0 (emitFlash (spawnPhotons pr x y z s ctr k).1 x y z) := by
    intro i
    have hEp : (emitFlash (spawnPhotons pr x y z s ctr k).1 x y z).pairWith
        = (spawnPhotons pr x y z s ctr k).1.pairWith := rfl
    rw [hEp]
    rcases g4 i with h | h
    · rw [h]; exact hd i
    · rw [h]; right; rfl
  exact wf_freePhase p0 _ a b hwfE hdE haE hpa0 hpab

/-- Processing one `toAnnihilate` record preserves well-formedness and
pairing decay relative to the classification-time pairing. -/
theorem wf_processOne (pr : ℕ → PhotonRand) (p0 : ℕ → ℤ) (act : List ℕ)
    (s : PoolState) (f : FieldState) (ctr : ℕ) (e : Entry)
    (hwf : wfPool s) (hd : pairDecay p0 s) (he : EntOK p0 act e) :
    wfPool (processOne pr s f ctr e).1 ∧ pairDecay p0 (processOne pr s f ctr e).1 := by
  have hpa0 : e.2.1 = -1 → p0 e.1 = -1 := by
    intro hb
    rcases he with ⟨_, h⟩ | ⟨h0, _⟩
    · exact h
    · rw [hb] at h0
      exact absurd h0 (by norm_num)
  have hpab : e.2.1 ≠ -1 →
      0 ≤ e.2.1 ∧ p0 e.1 = e.2.1 ∧ p0 (e.2.1).toNat = (e.1 : ℤ) := by
    intro hb
    rcases he with ⟨h1, _⟩ | ⟨h0, h1, h2, _, _⟩
    · exact absurd h1 hb
    · exact ⟨h0, h1.symm, h2⟩
  by_cases hact : e.1 ∈ s.active
  · simp only [processOne]
    rw [if_pos hact]
    by_cases hfl : e.2.2 = true
    · rw [hfl]
      simp only [eq_self_iff_true, if_true]
      exact wf_processOne_flash pr p0 _ _ _ s ctr 3 e.1 e.2.1 hwf hd hact hpa0 hpab
    · have hfl' : e.2.2 = false := by
        cases hb : e.2.2
        · rfl
        · exact absurd hb hfl
      rw [hfl']
      simp only [Bool.false_eq_true, if_false]
      exact wf_freePhase p0 s e.1 e.2.1 hwf hd hact hpa0 hpab
  · simp only [processOne]
    rw [if_neg hact]
    exact ⟨hwf, hd⟩

/-- The whole deferred-processing loop preserves well-formedness and
pairing decay when every queued record is well-formed. -/
theorem wf_processAll (pr : ℕ → PhotonRand) (p0 : ℕ → ℤ) (act : List ℕ) :
    ∀ (es : List Entry) (s : PoolState) (f : FieldState) (ctr : ℕ),
    wfPool s → pairDecay p0 s → (∀ e ∈ es, EntOK p0 act e) →
    wfPool (processAll pr s f ctr es).1 ∧
      pairDecay p0 (processAll pr s f ctr es).1 := by
  intro es
  induction es with
  | nil => intro s f ctr hwf hd _; exact ⟨hwf, hd⟩
  | cons e rest ih =>
      intro s f ctr hwf hd hes
      obtain ⟨h1, h2⟩ := wf_processOne pr p0 act s f ctr e hwf hd
        (hes e (List.mem_cons_self e rest))
      show wfPool (processAll pr (processOne pr s f ctr e).1
          (processOne pr s f ctr e).2.1 (processOne pr s f ctr e).2.2 rest).1 ∧ _
      exact ih _ _ _ h1 h2 (fun e' he' => hes e' (List.mem_cons_of_mem e he'))

/-- The classification pass followed by the deferred-processing pass
preserves well-formedness (the flash aging afterwards touches no
bookkeeping field). -/
theorem wf_classifyProcess (pr : ℕ → PhotonRand) (f : FieldState) (dt : ℚ)
    (s1 : PoolState) (hwf1 : wfPool s1) :
    wfPool (processAll pr (classify f dt s1 s1.active).1 f 0
      (classify f dt s1 s1.active).2).1 := by
  have hwfc : wfPool (classify f dt s1 s1.active).1 :=
    wf_classify f dt s1.active s1 hwf1 (fun i hi => hi)
  have hdc : pairDecay s1.pairWith (classify f dt s1 s1.active).1 :=
    fun i => Or.inl (congrFun (classify_proj f dt s1.active s1).2.2.2.1 i)
  have hent : ∀ e ∈ (classify f dt s1 s1.active).2, EntOK s1.pairWith s1.active e :=
    classify_entries f dt s1.active s1 hwf1 (fun i hi => hi)
  have hentT : ∀ e ∈ (classify f dt s1 s1.active).2,
      EntOK (classify f dt s1 s1.active).1.pairWith s1.active e := by
    intro e he
    rw [(classify_proj f dt s1.active s1).2.2.2.1]
    exact hent e he
  exact (wf_processAll pr (classify f dt s1 s1.active).1.pairWith s1.active
    (classify f dt s1 s1.active).2 (classify f dt s1 s1.active).1 f 0
    hwfc (fun i => Or.inl rfl) hentT).1

/-- `ParticleSystem.update` preserves well-formedness end to end. -/
theorem wf_psUpdate (s : PoolState) (f : FieldState) (dt : ℚ) (R : UpdateRand)
    (hwf : wfPool s) : wfPool (psUpdate s f dt R).1 := by
  have h1 : wfPool (spawnLoop f R
      { s with spawnAccum := s.spawnAccum + s.injectionRate * dt
          - ((⌊s.spawnAccum + s.injectionRate * dt⌋).toNat : ℚ) }
      0 (⌊s.spawnAccum + s.injectionRate * dt⌋).toNat) :=
    wf_spawnLoop f R _ 0 _ hwf
  exact wf_classifyProcess R.photonR f dt _ h1

/-- C7 counterexample: the invariant does NOT hold after each individual
`_free`.  `cPool1` is a well-formed state with a live mutual pair in
slots 0 and 1; after the single call `_free(0)`, slot 1 is still live,
its `pairWith` still points at slot 0, but slot 0 is no longer live and
no longer points back — the relation is neither symmetric nor absent. -/
theorem c7_cex :
    wfPool cPool1 ∧ 1 ∈ (freeP cPool1 0).active ∧
      (freeP cPool1 0).pairWith 1 ≠ -1 ∧ ¬ pairSym (freeP cPool1 0) := by
  unfold wfPool pairSym
  decide

/-- C7 (amended): the pairing-symmetry invariant holds at the operation
boundaries of `spawnPair` and of a complete `update` call — every live
slot with a non-`-1` `pairWith` then points to a distinct live slot that
points back.  (It is transiently violated between the two `_free` calls
of the processing loop, see the counterexample.) -/
theorem c7_thm (s : PoolState) (f : FieldState) (sr : SpawnRand) (tA tB : ℕ)
    (fU : FieldState) (dt : ℚ) (R : UpdateRand) (hwf : wfPool s) :
    pairSym (spawnPair s f sr tA tB) ∧ pairSym (psUpdate s fU dt R).1 :=
  ⟨(wf_spawnPair s f sr tA tB hwf).2.2.2.2.2.2.2,
   (wf_psUpdate s fU dt R hwf).2.2.2.2.2.2.2⟩

/-- C7 witness: the theorem applied to the concrete well-formed pool
`cPool1` with the zero random oracles and `dt = 1/250`. -/
theorem c7_witness :
    wfPool cPool1 ∧
      (pairSym (spawnPair cPool1 zeroField zeroSpawnRand TYPE_ELECTRON TYPE_POSITRON) ∧
       pairSym (psUpdate cPool1 zeroField (1/250) zeroUpdateRand).1) :=
  ⟨by unfold wfPool pairSym; decide,
   c7_thm cPool1 zeroField zeroSpawnRand TYPE_ELECTRON TYPE_POSITRON
    zeroField (1/250) zeroUpdateRand (by unfold wfPool pairSym; decide)⟩
